import Mathlib

/-!
# MKL `Squeeze` operator (`caffe2/mkl/operators/squeeze_op.cc`)

A shallow embedding of `caffe2::mkl::MKLSqueezeOp<T>`: its constructor (which
normalises and validates the `dims` argument) and `RunOnDevice` (one
invocation), followed by the properties established about them.

Conventions of the embedding.

* `int` values (`dims_`) are `Int`; tensor extents (`TIndex`, non-negative)
  are `Nat`.  The only arithmetic on `int` is `dims_.back() + 1`, the number
  printed in the rank error; it is computed with 32-bit wrap-around
  (`int_add`), so that at `dims_.back() = INT_MAX` the number is `INT_MIN`.
  No decision of the operator depends on it.
* A failed `CAFFE_ENFORCE` is an `Except.error`; the state reached when the
  exception is thrown is returned next to it, so that what a failed
  invocation leaves behind can be stated.
* `LOG(WARNING)` is a Boolean flag of the constructor's outcome.
* The tensor type `MKLMemory<T>`, the macro `CHECK_INPUT_DIMS` and
  `SqueezeOp<MKLContext>::ComputeDims` live in headers; they are modelled from
  the specification, and what the specification leaves to the layout engine
  is a parameter (`LayoutEngine`).
* Aliasing is a flag next to a value: the output's `data` after `ShareFrom`
  is the buffer's.  The buffer is written only by `CopyFrom`, and an invocation
  that has run `CopyFrom` resets the output before it returns or throws, so
  whenever an invocation ends the value read through the alias is the
  recorded one.
-/

namespace caffe2
namespace mkl

/-! ## Errors -/

/-- The failure sites of an invocation or a construction: the four
`CAFFE_ENFORCE` of the operator, the `CAFFE_ENFORCE_GT` of the rank check, and
the failures of the two collaborators that can throw (`ComputeDims`,
`CopyFrom`). -/
inductive Error where
  /-- `CAFFE_ENFORCE(originalSize > 0, "Parameter dims must be provided.")` -/
  | dimsNotProvided
  /-- `CAFFE_ENFORCE(dims_.front() >= 0, "Dimension ids must be non-negative.")` -/
  | negativeDim
  /-- `CAFFE_ENFORCE_GT(X.ndim(), dims_.back(), "Input needs at least ",
  (dims_.back() + 1), " dimensions.")`; the payload is the number printed, the
  value of the `int` expression `dims_.back() + 1`. -/
  | rankTooLow (needed : Int)
  /-- The shape computation met a targeted axis `axis` of extent `extent ≠ 1`. -/
  | nonSingleton (axis : Nat) (extent : Nat)
  /-- `buffer_.CopyFrom(X)` on a buffer that was never `Reset`: there is no
  storage to copy into. -/
  | copyUnallocated
  /-- `CAFFE_ENFORCE(dnnLayoutCompare<T>(buffer_.layout(), Y->layout()))` -/
  | layoutMismatch
  /-- `CAFFE_ENFORCE(Y->ShareFrom(buffer_))` -/
  | shareFailed
  deriving DecidableEq, Repr

/-- The specification's `ConfigError`: the two failures of construction. -/
def Error.isConfigError : Error → Bool
  | .dimsNotProvided => true
  | .negativeDim => true
  | _ => false

/-- The specification's rank `ShapeError` ("Input needs at least ... dimensions"). -/
def Error.isRankError : Error → Bool
  | .rankTooLow _ => true
  | _ => false

/-- The specification's `ShapeError` raised by the shape computation. -/
def Error.isSingletonError : Error → Bool
  | .nonSingleton _ _ => true
  | _ => false

/-- The specification's `ShapeError`: rank too low, or a non-singleton axis. -/
def Error.isShapeError (e : Error) : Bool :=
  e.isRankError || e.isSingletonError

/-! ## `std::sort` and `std::unique` on `vector<int>` -/

/-- `std::sort(first, last)` on integers: the ascending rearrangement of the
range (for a total order on values the result does not depend on the sorting
algorithm). -/
def std_sort (v : List Int) : List Int :=
  v.insertionSort (· ≤ ·)

/-- The loop of `std::unique`: `kept` is the last element written to the
result (`*result`); an element equal to it is skipped, another one is
appended and becomes the last kept. -/
def std_unique_loop (kept : Int) : List Int → List Int
  | [] => []
  | x :: rest =>
    if kept = x then std_unique_loop kept rest
    else x :: std_unique_loop x rest

/-- `v.erase(std::unique(v.begin(), v.end()), v.end())`: from every run of
consecutive equal elements only the first is kept. -/
def std_unique : List Int → List Int
  | [] => []
  | x :: rest => x :: std_unique_loop x rest

/-- The sum `a + b` of two `int`: the 32-bit two's-complement value, wrapping
around outside `[-2^31, 2^31)`. -/
def int_add (a b : Int) : Int :=
  (a + b + 2147483648) % 4294967296 - 2147483648

/-- `v.front()`; only called on non-empty vectors. -/
def front (v : List Int) : Int := v.headD 0

/-- `v.back()`; only called on non-empty vectors. -/
def back (v : List Int) : Int := v.getLastD 0

/-! ## Tensors -/

/-- The layout descriptor: an opaque tag, plain or optimized. -/
inductive Layout where
  | plain
  | optimized
  deriving DecidableEq, Repr

/-- Modelled from the spec: the tensor type `MKLMemory<T>` (declared in
`caffe2/mkl/mkl_utils.h`): a logical shape, a layout descriptor and a data
buffer.  `data` is the element values in row-major logical order;
`sharesBuffer` tells that the storage is not the tensor's own but the
operator's conversion buffer (set by `ShareFrom(buffer_)`). -/
structure MKLMemory (α : Type) where
  dims : List Nat
  layout : Layout
  data : List α
  sharesBuffer : Bool
  deriving DecidableEq, Repr

/-- `X.ndim()` -/
def MKLMemory.ndim {α : Type} (X : MKLMemory α) : Nat := X.dims.length

/-- The layout engine, as far as the operator calls it and the specification
leaves its answers open. -/
structure LayoutEngine (α : Type) where
  /-- The layout descriptor that `Reset(dims, nullptr, dnnResourceNumber, share)`
  gives the tensor; `share` is the `share_mem_if_possible` argument. -/
  resetLayout : List Nat → Bool → Layout
  /-- `dnnLayoutCompare<T>(l1, l2)` -/
  dnnLayoutCompare : Layout → Layout → Bool
  /-- Whether `dst.ShareFrom(src)` accepts to alias (its Boolean result). -/
  shareFrom : MKLMemory α → MKLMemory α → Bool

/-- Modelled from the spec: `MKLMemory<T>::Reset(dims, primitive, type,
share_mem_if_possible)` with `primitive = nullptr`, `type = dnnResourceNumber`:
the tensor gets the shape `dims` and a fresh, empty allocation. -/
def MKLMemory.Reset {α : Type} (eng : LayoutEngine α) (dims : List Nat)
    (share_mem_if_possible : Bool) : MKLMemory α :=
  { dims := dims
    layout := eng.resetLayout dims share_mem_if_possible
    data := []
    sharesBuffer := false }

/-- Modelled from the spec: `MKLMemory<T>::CopyFrom(X)` on an allocated
buffer: the buffer receives the input's element values (a layout-normalising
copy; the buffer keeps its own shape and layout descriptor). -/
def MKLMemory.CopyFrom {α : Type} (buf X : MKLMemory α) : MKLMemory α :=
  { buf with data := X.data }

/-- Modelled from the spec: the effect of a successful `Y->ShareFrom(src)`:
the storage of `Y` becomes that of `src` (a shared view; no data copy). -/
def MKLMemory.ShareFrom {α : Type} (Y src : MKLMemory α) : MKLMemory α :=
  { Y with data := src.data, sharesBuffer := true }

/-- Modelled from the spec: `MKLMemory<T>::Reshape(new_dims)`: only the shape
metadata is rewritten. -/
def MKLMemory.Reshape {α : Type} (Y : MKLMemory α) (new_dims : List Nat) : MKLMemory α :=
  { Y with dims := new_dims }

/-! ## The operator -/

/-- The data members of `MKLSqueezeOp<T>`: `dims_` and `cached_input_dims_`
(declared in the class) and `buffer_` (inherited from `MKLOperator<T>`);
`none` is the buffer before its first `Reset`. -/
structure MKLSqueezeOp (α : Type) where
  dims_ : List Int
  cached_input_dims_ : List Nat
  buffer_ : Option (MKLMemory α)
  deriving DecidableEq, Repr

/-- What running the constructor gives: whether the warning
"Parameter dims has repeated dimensions." was logged, and the instance or the
error that aborted construction. -/
structure Construction (α : Type) where
  warned : Bool
  result : Except Error (MKLSqueezeOp α)

/-- The constructor `MKLSqueezeOp(operator_def, ws)`, as a function of the
value of the repeated argument `dims`. -/
def MKLSqueezeOp.construct (α : Type) (raw : List Int) : Construction α :=
  let originalSize := raw.length
  if ¬ (originalSize > 0) then
    { warned := false, result := .error .dimsNotProvided }
  else
    let dims_ := std_unique (std_sort raw)
    let warned := decide (dims_.length < originalSize)
    if ¬ (front dims_ ≥ 0) then
      { warned := warned, result := .error .negativeDim }
    else
      { warned := warned
        result := .ok { dims_ := dims_, cached_input_dims_ := [], buffer_ := none } }

/-- Modelled from the spec: the walk of `SqueezeOp<MKLContext>::ComputeDims`
(declared in `caffe2/operators/expand_squeeze_dims_op.h`) over the axes of the
input, from axis `i` on: a targeted axis must have extent 1 and is dropped, any
other axis is kept. -/
def ComputeDimsFrom (dims : List Int) : Nat → List Nat → Except Error (List Nat)
  | _, [] => .ok []
  | i, extent :: rest =>
    if (i : Int) ∈ dims then
      if extent = 1 then ComputeDimsFrom dims (i + 1) rest
      else .error (.nonSingleton i extent)
    else
      match ComputeDimsFrom dims (i + 1) rest with
      | .ok out => .ok (extent :: out)
      | .error e => .error e

/-- Modelled from the spec: `SqueezeOp<MKLContext>::ComputeDims(inputDims, dims)`,
the shape-computation collaborator: given the input's full shape and the
validated dimension set, it returns the squeezed shape, or fails when a
targeted axis has extent other than 1. -/
def ComputeDims (inputDims : List Nat) (dims : List Int) : Except Error (List Nat) :=
  ComputeDimsFrom dims 0 inputDims

/-- Modelled from the spec: the macro `CHECK_INPUT_DIMS(X, dims_changed)`
(defined in `caffe2/mkl/mkl_utils.h`): the input's shape is compared with the
cached shape and the cached shape is updated; the result is the new cached
shape and the value left in `dims_changed`. -/
def CHECK_INPUT_DIMS (cached_input_dims_ : List Nat) (Xdims : List Nat) :
    List Nat × Bool :=
  (Xdims, decide (Xdims ≠ cached_input_dims_))

/-- An invocation as the caller sees it: the outcome, the operator's data
members and the output tensor when the invocation returned or threw, and
whether `buffer_.Reset` ran. -/
structure RunResult (α : Type) where
  outcome : Except Error Unit
  op : MKLSqueezeOp α
  Y : MKLMemory α
  reallocated : Bool

/-- `MKLSqueezeOp<T>::RunOnDevice()`.  `X` is `Input(0)`, `Y` is `*Output(0)`
as the invocation finds it. -/
def MKLSqueezeOp.RunOnDevice {α : Type} (eng : LayoutEngine α) (op : MKLSqueezeOp α)
    (X : MKLMemory α) (Y : MKLMemory α) : RunResult α :=
  -- CAFFE_ENFORCE_GT(X.ndim(), dims_.back(), ...)
  if ¬ ((X.ndim : Int) > back op.dims_) then
    { outcome := .error (.rankTooLow (int_add (back op.dims_) 1)), op := op, Y := Y,
      reallocated := false }
  else
    -- new_dims = SqueezeOp<MKLContext>::ComputeDims(X.dims(), dims_)
    match ComputeDims X.dims op.dims_ with
    | .error e => { outcome := .error e, op := op, Y := Y, reallocated := false }
    | .ok new_dims =>
      -- CHECK_INPUT_DIMS(X, dims_changed)
      let checked := CHECK_INPUT_DIMS op.cached_input_dims_ X.dims
      let dims_changed := checked.2
      -- if (dims_changed) buffer_.Reset(X.dims())
      let op1 : MKLSqueezeOp α :=
        { op with
          cached_input_dims_ := checked.1
          buffer_ := if dims_changed then some (MKLMemory.Reset eng X.dims false)
                     else op.buffer_ }
      -- buffer_.CopyFrom(X)
      match op1.buffer_ with
      | none =>
        { outcome := .error .copyUnallocated, op := op1, Y := Y,
          reallocated := dims_changed }
      | some buf =>
        let buffer_ := buf.CopyFrom X
        let op2 : MKLSqueezeOp α := { op1 with buffer_ := some buffer_ }
        -- Y->Reset(X.dims(), nullptr, dnnResourceNumber, true)
        let Y1 : MKLMemory α := MKLMemory.Reset eng X.dims true
        -- CAFFE_ENFORCE(dnnLayoutCompare<T>(buffer_.layout(), Y->layout()))
        if ¬ eng.dnnLayoutCompare buffer_.layout Y1.layout then
          { outcome := .error .layoutMismatch, op := op2, Y := Y1,
            reallocated := dims_changed }
        -- CAFFE_ENFORCE(Y->ShareFrom(buffer_))
        else if ¬ eng.shareFrom Y1 buffer_ then
          { outcome := .error .shareFailed, op := op2, Y := Y1,
            reallocated := dims_changed }
        else
          let Y2 : MKLMemory α := Y1.ShareFrom buffer_
          -- Y->Reshape(new_dims)
          { outcome := .ok (), op := op2, Y := Y2.Reshape new_dims,
            reallocated := dims_changed }

/-- The shape `shape` with the axes at the positions listed in `dims` removed
and all other extents kept in their order (the specification's squeezed
shape, written without reference to the walk of `ComputeDims`): the axes are
numbered, those whose number is listed are filtered out. -/
def removeAxes (shape : List Nat) (dims : List Int) : List Nat :=
  ((shape.enum.filter (fun p => decide ((p.1 : Int) ∉ dims))).map Prod.snd)

/-- The layout engine used in the worked examples: every `Reset` gives the
plain layout, two layouts are compatible when they are equal, and aliasing is
accepted. -/
def plainEngine (α : Type) : LayoutEngine α :=
  { resetLayout := fun _ _ => .plain
    dnnLayoutCompare := fun a b => decide (a = b)
    shareFrom := fun _ _ => true }

/-- A tensor of shape `dims` in the plain layout with its own data. -/
def tensor {α : Type} (dims : List Nat) (data : List α) : MKLMemory α :=
  { dims := dims, layout := .plain, data := data, sharesBuffer := false }

/-- The execution engine invoking one instance repeatedly, once per input of
`Xs`, whatever the outcome of each invocation: the data members and the output
tensor after the last one. -/
def MKLSqueezeOp.runMany {α : Type} (eng : LayoutEngine α) :
    MKLSqueezeOp α → MKLMemory α → List (MKLMemory α) → MKLSqueezeOp α × MKLMemory α
  | op, Y, [] => (op, Y)
  | op, Y, X :: Xs =>
    MKLSqueezeOp.runMany eng (op.RunOnDevice eng X Y).op (op.RunOnDevice eng X Y).Y Xs

/-- The two states of an instance in the specification's state machine. -/
inductive ExecutorState where
  | Uninitialized
  | Warm
  deriving DecidableEq, Repr

/-- The state of an instance: `Uninitialized` as long as the conversion buffer
has never been `Reset` (no conversion buffer yet), `Warm` once it exists. -/
def MKLSqueezeOp.state {α : Type} (op : MKLSqueezeOp α) : ExecutorState :=
  match op.buffer_ with
  | none => .Uninitialized
  | some _ => .Warm

/-- Whether an invocation on `X` gets past the two checks at the head of
`RunOnDevice` (the rank check and the shape computation) and so reaches
`CHECK_INPUT_DIMS` and the copy. -/
def passesChecks {α : Type} (dims_ : List Int) (X : MKLMemory α) : Bool :=
  decide (back dims_ < (X.ndim : Int)) &&
    match ComputeDims X.dims dims_ with
    | .ok _ => true
    | .error _ => false

/-- The shape of the last input of `Xs` whose invocation got past both checks;
`init` when none did. -/
def lastAdaptedShape {α : Type} (dims_ : List Int) (init : List Nat) :
    List (MKLMemory α) → List Nat
  | [] => init
  | X :: Xs => lastAdaptedShape dims_ (if passesChecks dims_ X then X.dims else init) Xs

/-- A layout engine in which `Reset` with `share_mem_if_possible` gives the
optimized layout and without it the plain one, two descriptors being compatible
only when they are equal: the layout check between the buffer and the output
fails. -/
def strictEngine (α : Type) : LayoutEngine α :=
  { resetLayout := fun _ share => if share then .optimized else .plain
    dnnLayoutCompare := fun a b => decide (a = b)
    shareFrom := fun _ _ => true }

/-- A layout engine that accepts the layouts and refuses to alias. -/
def noShareEngine (α : Type) : LayoutEngine α :=
  { resetLayout := fun _ _ => .plain
    dnnLayoutCompare := fun a b => decide (a = b)
    shareFrom := fun _ _ => false }

/-- The cache is consistent: a buffer that exists has the cached shape, and
while there is no buffer the cached shape is the empty one. -/
def CacheConsistent {α : Type} (op : MKLSqueezeOp α) : Prop :=
  match op.buffer_ with
  | none => op.cached_input_dims_ = []
  | some buf => buf.dims = op.cached_input_dims_

/-! ## Sorting and deduplication -/

theorem std_sort_perm (v : List Int) : (std_sort v).Perm v :=
  List.perm_insertionSort _ v

theorem std_sort_sorted (v : List Int) : (std_sort v).Sorted (· ≤ ·) :=
  List.sorted_insertionSort _ v

theorem std_sort_eq_of_perm {v w : List Int} (h : v.Perm w) : std_sort v = std_sort w :=
  List.eq_of_perm_of_sorted (((std_sort_perm v).trans h).trans (std_sort_perm w).symm)
    (std_sort_sorted v) (std_sort_sorted w)

theorem std_sort_ne_nil {v : List Int} (h : v ≠ []) : std_sort v ≠ [] := by
  intro h0
  have hl := (std_sort_perm v).length_eq
  rw [h0] at hl
  exact h (List.length_eq_zero.mp hl.symm)

theorem mem_std_unique_loop (kept : Int) (l : List Int) (y : Int) :
    y ∈ kept :: std_unique_loop kept l ↔ y ∈ kept :: l := by
  induction l generalizing kept with
  | nil => simp [std_unique_loop]
  | cons x rest ih =>
    by_cases hx : kept = x
    · subst hx
      have := ih kept
      simp only [std_unique_loop, if_true, List.mem_cons] at this ⊢
      rw [this]; tauto
    · have := ih x
      simp only [std_unique_loop, if_neg hx, List.mem_cons] at this ⊢
      rw [this]

theorem mem_std_unique (l : List Int) (y : Int) : y ∈ std_unique l ↔ y ∈ l := by
  cases l with
  | nil => simp [std_unique]
  | cons x rest => exact mem_std_unique_loop x rest y

theorem std_unique_loop_sorted (kept : Int) (l : List Int)
    (h : (kept :: l).Sorted (· ≤ ·)) :
    (kept :: std_unique_loop kept l).Sorted (· < ·) := by
  induction l generalizing kept with
  | nil => simp [std_unique_loop]
  | cons x rest ih =>
    have h1 : ∀ b ∈ x :: rest, kept ≤ b := (List.sorted_cons.mp h).1
    have h2 : (x :: rest).Sorted (· ≤ ·) := (List.sorted_cons.mp h).2
    by_cases hx : kept = x
    · subst hx
      simpa [std_unique_loop] using ih kept h2
    · have hlt : kept < x := lt_of_le_of_ne (h1 x (List.mem_cons_self _ _)) hx
      have hs := ih x h2
      simp only [std_unique_loop, if_neg hx]
      refine List.sorted_cons.mpr ⟨?_, hs⟩
      intro b hb
      rcases List.mem_cons.mp hb with hb | hb
      · exact hb ▸ hlt
      · exact lt_trans hlt ((List.sorted_cons.mp hs).1 b hb)

theorem std_unique_sorted (l : List Int) (h : l.Sorted (· ≤ ·)) :
    (std_unique l).Sorted (· < ·) := by
  cases l with
  | nil => simp [std_unique]
  | cons x rest => exact std_unique_loop_sorted x rest h

theorem std_unique_ne_nil {l : List Int} (h : l ≠ []) : std_unique l ≠ [] := by
  cases l with
  | nil => exact absurd rfl h
  | cons x rest => simp [std_unique]

theorem front_std_unique (l : List Int) : front (std_unique l) = front l := by
  cases l <;> rfl

/-- The vector that the constructor stores for the argument `raw`. -/
theorem normalized_sorted (raw : List Int) :
    (std_unique (std_sort raw)).Sorted (· < ·) :=
  std_unique_sorted _ (std_sort_sorted raw)

theorem mem_normalized (raw : List Int) (d : Int) :
    d ∈ std_unique (std_sort raw) ↔ d ∈ raw :=
  (mem_std_unique _ d).trans (std_sort_perm raw).mem_iff

theorem normalized_perm_dedup (raw : List Int) :
    (std_unique (std_sort raw)).Perm raw.dedup :=
  (List.perm_ext_iff_of_nodup (normalized_sorted raw).nodup (List.nodup_dedup raw)).mpr
    (fun d => (mem_normalized raw d).trans List.mem_dedup.symm)

theorem normalized_length_lt_iff (raw : List Int) :
    (std_unique (std_sort raw)).length < raw.length ↔ ¬ raw.Nodup := by
  rw [(normalized_perm_dedup raw).length_eq]
  constructor
  · intro h hn
    rw [hn.dedup] at h
    exact lt_irrefl _ h
  · intro hn
    refine lt_of_le_of_ne (List.dedup_sublist raw).length_le ?_
    intro he
    exact hn ((List.dedup_sublist raw).eq_of_length he ▸ List.nodup_dedup raw)

theorem front_mem {l : List Int} (h : l ≠ []) : front l ∈ l := by
  cases l with
  | nil => exact absurd rfl h
  | cons x rest => simp [front]

theorem front_le_of_sorted {l : List Int} (h : l.Sorted (· ≤ ·)) {d : Int} (hd : d ∈ l) :
    front l ≤ d := by
  cases l with
  | nil => simp at hd
  | cons x rest =>
    rcases List.mem_cons.mp hd with hd | hd
    · simp [front, hd]
    · exact (List.sorted_cons.mp h).1 d hd

theorem back_mem {l : List Int} (h : l ≠ []) : back l ∈ l := by
  induction l with
  | nil => exact absurd rfl h
  | cons x rest ih =>
    cases rest with
    | nil => simp [back]
    | cons y rest2 =>
      have := ih (by simp)
      simp only [back, List.getLastD_cons] at this ⊢
      exact List.mem_cons_of_mem _ this

theorem le_back_of_sorted {l : List Int} (h : l.Sorted (· < ·)) {d : Int} (hd : d ∈ l) :
    d ≤ back l := by
  induction l with
  | nil => simp at hd
  | cons x rest ih =>
    cases rest with
    | nil =>
      simp only [List.mem_singleton] at hd
      simp [back, hd]
    | cons y rest2 =>
      have hs := List.sorted_cons.mp h
      have hb : back (x :: y :: rest2) = back (y :: rest2) := by
        simp [back, List.getLastD_cons]
      rw [hb]
      rcases List.mem_cons.mp hd with hd | hd
      · have h1 : x < back (y :: rest2) := hs.1 _ (back_mem (by simp))
        rw [hd]; exact le_of_lt h1
      · exact ih hs.2 hd

/-- The constructor, case by case. -/
theorem construct_nil (α : Type) :
    MKLSqueezeOp.construct α [] = { warned := false, result := .error .dimsNotProvided } := by
  simp [MKLSqueezeOp.construct]

theorem front_normalized_nonneg_iff {raw : List Int} (h : raw ≠ []) :
    0 ≤ front (std_unique (std_sort raw)) ↔ ∀ d ∈ raw, 0 ≤ d := by
  rw [front_std_unique]
  constructor
  · intro h0 d hd
    exact le_trans h0 (front_le_of_sorted (std_sort_sorted raw) ((std_sort_perm raw).mem_iff.mpr hd))
  · intro hall
    exact hall _ ((std_sort_perm raw).mem_iff.mp (front_mem (std_sort_ne_nil h)))

theorem construct_result_ok_iff (α : Type) (raw : List Int) (op : MKLSqueezeOp α) :
    (MKLSqueezeOp.construct α raw).result = .ok op ↔
      (raw ≠ [] ∧ (∀ d ∈ raw, 0 ≤ d)) ∧
        op = { dims_ := std_unique (std_sort raw), cached_input_dims_ := [], buffer_ := none } := by
  by_cases h : raw = []
  · subst h
    simp [MKLSqueezeOp.construct]
  · have hlen : 0 < raw.length := List.length_pos.mpr h
    by_cases hf : 0 ≤ front (std_unique (std_sort raw))
    · have hall := (front_normalized_nonneg_iff h).mp hf
      simp only [MKLSqueezeOp.construct, gt_iff_lt, hlen, not_true_eq_false, if_false, ge_iff_le,
        hf, Except.ok.injEq]
      constructor
      · intro he; exact ⟨⟨h, hall⟩, he.symm⟩
      · intro he; exact he.2.symm
    · have hall : ¬ ∀ d ∈ raw, 0 ≤ d := fun hh => hf ((front_normalized_nonneg_iff h).mpr hh)
      simp only [MKLSqueezeOp.construct, gt_iff_lt, hlen, not_true_eq_false, if_false, ge_iff_le,
        hf, not_false_eq_true, if_true]
      constructor
      · intro he; cases he
      · intro he; exact absurd he.1.2 hall

theorem construct_result_error (α : Type) (raw : List Int)
    (h : ¬ (raw ≠ [] ∧ ∀ d ∈ raw, 0 ≤ d)) :
    (MKLSqueezeOp.construct α raw).result =
      .error (if raw = [] then .dimsNotProvided else .negativeDim) := by
  by_cases h0 : raw = []
  · subst h0
    simp [MKLSqueezeOp.construct]
  · have hlen : 0 < raw.length := List.length_pos.mpr h0
    have hf : ¬ 0 ≤ front (std_unique (std_sort raw)) := fun hf =>
      h ⟨h0, (front_normalized_nonneg_iff h0).mp hf⟩
    simp [MKLSqueezeOp.construct, hlen, hf, h0]

theorem construct_warned (α : Type) (raw : List Int) :
    (MKLSqueezeOp.construct α raw).warned =
      decide ((std_unique (std_sort raw)).length < raw.length) := by
  by_cases h : raw = []
  · subst h
    simp [MKLSqueezeOp.construct]
  · have hlen : 0 < raw.length := List.length_pos.mpr h
    by_cases hf : 0 ≤ front (std_unique (std_sort raw)) <;>
      simp [MKLSqueezeOp.construct, hlen, hf]

theorem RunOnDevice_dims_ {α : Type} (eng : LayoutEngine α) (op : MKLSqueezeOp α)
    (X Y : MKLMemory α) : (op.RunOnDevice eng X Y).op.dims_ = op.dims_ := by
  unfold MKLSqueezeOp.RunOnDevice
  split
  · rfl
  · split
    · rfl
    · dsimp only
      split
      · rfl
      · split
        · rfl
        · split <;> rfl

theorem runMany_dims_ {α : Type} (eng : LayoutEngine α) (op : MKLSqueezeOp α)
    (Y : MKLMemory α) (Xs : List (MKLMemory α)) :
    (MKLSqueezeOp.runMany eng op Y Xs).1.dims_ = op.dims_ := by
  induction Xs generalizing op Y with
  | nil => rfl
  | cons X Xs ih =>
    rw [MKLSqueezeOp.runMany, ih, RunOnDevice_dims_]

/-! ## Construction -/

/-- C1: construction succeeds exactly when the raw `dims` list is non-empty
and has no negative entry; in every other case it fails with a `ConfigError`
and gives no instance.  In particular `dims=[]` and `dims=[-1]` fail, and so
does a list whose negative entry is not at the front. -/
theorem construct_succeeds_iff (α : Type) (raw : List Int) :
    ((∃ op, (MKLSqueezeOp.construct α raw).result = .ok op) ↔
        (raw ≠ [] ∧ ∀ d ∈ raw, 0 ≤ d)) ∧
    ((∃ e, (MKLSqueezeOp.construct α raw).result = .error e ∧ e.isConfigError = true) ↔
        ¬ (raw ≠ [] ∧ ∀ d ∈ raw, 0 ≤ d)) ∧
    (MKLSqueezeOp.construct α []).result = .error .dimsNotProvided ∧
    (MKLSqueezeOp.construct α [-1]).result = .error .negativeDim ∧
    (MKLSqueezeOp.construct α [3, 0, -2, 1]).result = .error .negativeDim := by
  refine ⟨?_, ?_, by rfl, by rfl, by rfl⟩
  · constructor
    · rintro ⟨op, h⟩
      exact ((construct_result_ok_iff α raw op).mp h).1
    · intro h
      exact ⟨_, (construct_result_ok_iff α raw _).mpr ⟨h, rfl⟩⟩
  · constructor
    · rintro ⟨e, he, _⟩ h
      rw [(construct_result_ok_iff α raw _).mpr ⟨h, rfl⟩] at he
      cases he
    · intro h
      refine ⟨_, construct_result_error α raw h, ?_⟩
      split <;> rfl

/-- C2: for every raw `dims` list that the constructor accepts, the stored
`dims_` is strictly ascending and holds exactly the values of the raw list. -/
theorem construct_dims_strictly_ascending (α : Type) (raw : List Int) (op : MKLSqueezeOp α)
    (h : (MKLSqueezeOp.construct α raw).result = .ok op) :
    op.dims_.Sorted (· < ·) ∧ op.dims_.Nodup ∧ ∀ d : Int, d ∈ op.dims_ ↔ d ∈ raw := by
  obtain ⟨_, rfl⟩ := (construct_result_ok_iff α raw op).mp h
  exact ⟨normalized_sorted raw, (normalized_sorted raw).nodup, mem_normalized raw⟩

/-- Witness of C2: `dims=[2,2,0]` is accepted and yields `[0,2]`. -/
theorem construct_dims_strictly_ascending_witness :
    (MKLSqueezeOp.construct Nat [2, 2, 0]).result
        = .ok { dims_ := [0, 2], cached_input_dims_ := [], buffer_ := none } ∧
      (([0, 2] : List Int).Sorted (· < ·) ∧ ([0, 2] : List Int).Nodup ∧
        ∀ d : Int, d ∈ ([0, 2] : List Int) ↔ d ∈ ([2, 2, 0] : List Int)) :=
  ⟨by rfl,
    construct_dims_strictly_ascending Nat [2, 2, 0]
      { dims_ := [0, 2], cached_input_dims_ := [], buffer_ := none } (by rfl)⟩

/-- C3: an operator that was constructed holds, at construction and after any
sequence of invocations, a `dims_` that is non-empty with no negative entry;
its last entry `dims_.back()`, which the rank check reads, exists, is the
largest entry and is non-negative. -/
theorem constructed_dims_invariant (α : Type) (eng : LayoutEngine α) (raw : List Int)
    (op0 : MKLSqueezeOp α) (Y : MKLMemory α) (Xs : List (MKLMemory α))
    (h : (MKLSqueezeOp.construct α raw).result = .ok op0) :
    (MKLSqueezeOp.runMany eng op0 Y Xs).1.dims_ = op0.dims_ ∧
    op0.dims_ ≠ [] ∧
    (∀ d ∈ op0.dims_, 0 ≤ d) ∧
    op0.dims_.getLast? = some (back op0.dims_) ∧
    (∀ d ∈ op0.dims_, d ≤ back op0.dims_) ∧
    0 ≤ back op0.dims_ := by
  obtain ⟨⟨hne, hall⟩, rfl⟩ := (construct_result_ok_iff α raw op0).mp h
  have hne2 : std_unique (std_sort raw) ≠ [] := std_unique_ne_nil (std_sort_ne_nil hne)
  have hnn : ∀ d ∈ std_unique (std_sort raw), 0 ≤ d := fun d hd =>
    hall d ((mem_normalized raw d).mp hd)
  refine ⟨runMany_dims_ eng _ Y Xs, hne2, hnn, ?_, ?_, hnn _ (back_mem hne2)⟩
  · dsimp only
    rw [List.getLast?_eq_getLast _ hne2, back, List.getLastD_eq_getLast?,
      List.getLast?_eq_getLast _ hne2]
    rfl
  · intro d hd
    exact le_back_of_sorted (normalized_sorted raw) hd

/-- Witness of C3: the operator constructed from `dims=[2,2,0]`, invoked on an
input of shape `[1,3,1]` and then on one of shape `[4]`. -/
theorem constructed_dims_invariant_witness :
    (MKLSqueezeOp.runMany (plainEngine Nat)
        { dims_ := [0, 2], cached_input_dims_ := [], buffer_ := none }
        (tensor [] []) [tensor [1, 3, 1] [7, 8, 9], tensor [4] [1, 2, 3, 4]]).1.dims_
      = ([0, 2] : List Int) ∧
    ([0, 2] : List Int) ≠ [] ∧
    (∀ d ∈ ([0, 2] : List Int), 0 ≤ d) ∧
    ([0, 2] : List Int).getLast? = some (back [0, 2]) ∧
    (∀ d ∈ ([0, 2] : List Int), d ≤ back [0, 2]) ∧
    0 ≤ back ([0, 2] : List Int) :=
  constructed_dims_invariant Nat (plainEngine Nat) [2, 2, 0]
    { dims_ := [0, 2], cached_input_dims_ := [], buffer_ := none }
    (tensor [] []) [tensor [1, 3, 1] [7, 8, 9], tensor [4] [1, 2, 3, 4]] (by rfl)

/-- C4: the constructor logs the repeated-dimensions warning exactly when some
value occurs more than once in the raw list, which is exactly when
deduplication made the vector shorter; a list of pairwise distinct values
gives no warning. -/
theorem construct_warned_iff (α : Type) (raw : List Int) :
    ((MKLSqueezeOp.construct α raw).warned = true ↔ ∃ x : Int, 1 < raw.count x) ∧
    ((MKLSqueezeOp.construct α raw).warned = true ↔
        (std_unique (std_sort raw)).length < raw.length) ∧
    ((MKLSqueezeOp.construct α raw).warned = false ↔ raw.Nodup) := by
  have hw := construct_warned α raw
  have hlt := normalized_length_lt_iff raw
  have h1 : (MKLSqueezeOp.construct α raw).warned = true ↔ ¬ raw.Nodup := by
    rw [hw, decide_eq_true_iff]; exact hlt
  refine ⟨?_, ?_, ?_⟩
  · rw [h1, List.nodup_iff_count_le_one]
    push_neg
    rfl
  · rw [hw, decide_eq_true_iff]
  · rw [← Bool.not_eq_true, h1, not_not]

/-- C5: construction does not depend on the order of the raw list: two lists
that are permutations of each other give the same result (the same instance
or the same error) and the same warning decision. -/
theorem construct_perm (α : Type) (raw1 raw2 : List Int) (h : raw1.Perm raw2) :
    (MKLSqueezeOp.construct α raw1).result = (MKLSqueezeOp.construct α raw2).result ∧
    (MKLSqueezeOp.construct α raw1).warned = (MKLSqueezeOp.construct α raw2).warned := by
  have hs : std_sort raw1 = std_sort raw2 := std_sort_eq_of_perm h
  have hl : raw1.length = raw2.length := h.length_eq
  have he : MKLSqueezeOp.construct α raw1 = MKLSqueezeOp.construct α raw2 := by
    unfold MKLSqueezeOp.construct
    rw [hs, hl]
  rw [he]
  exact ⟨rfl, rfl⟩

/-- Witness of C5: `[2,2,0]` and `[0,2,2]`. -/
theorem construct_perm_witness :
    (MKLSqueezeOp.construct Nat [2, 2, 0]).result = (MKLSqueezeOp.construct Nat [0, 2, 2]).result ∧
    (MKLSqueezeOp.construct Nat [2, 2, 0]).warned = (MKLSqueezeOp.construct Nat [0, 2, 2]).warned :=
  construct_perm Nat [2, 2, 0] [0, 2, 2] (by decide)

/-! ## The shape computation -/

theorem ComputeDimsFrom_error (dims : List Int) (i : Nat) (shape : List Nat) (e : Error)
    (h : ComputeDimsFrom dims i shape = .error e) : e.isSingletonError = true := by
  induction shape generalizing i with
  | nil => simp [ComputeDimsFrom] at h
  | cons extent rest ih =>
    unfold ComputeDimsFrom at h
    split at h
    · split at h
      · exact ih _ h
      · cases h; rfl
    · split at h
      · cases h
      · next e2 he2 => cases h; exact ih _ he2

theorem ComputeDimsFrom_ok_iff (dims : List Int) (i : Nat) (shape out : List Nat) :
    ComputeDimsFrom dims i shape = .ok out ↔
      (∀ k extent, shape[k]? = some extent → ((i + k : Nat) : Int) ∈ dims → extent = 1) ∧
        out = ((shape.enumFrom i).filter (fun p => decide ((p.1 : Int) ∉ dims))).map Prod.snd := by
  induction shape generalizing i out with
  | nil => simp [ComputeDimsFrom, eq_comm]
  | cons extent rest ih =>
    have shift : (∀ k ext, rest[k]? = some ext → ((i + 1 + k : Nat) : Int) ∈ dims → ext = 1) ↔
        (∀ k ext, (extent :: rest)[k + 1]? = some ext → ((i + (k + 1) : Nat) : Int) ∈ dims →
          ext = 1) := by
      constructor
      · intro h k ext hk hm
        have : i + 1 + k = i + (k + 1) := by omega
        exact h k ext (by simpa using hk) (this ▸ hm)
      · intro h k ext hk hm
        have : i + 1 + k = i + (k + 1) := by omega
        exact h k ext (by simpa using hk) (this ▸ hm)
    have split0 : (∀ k ext, (extent :: rest)[k]? = some ext → ((i + k : Nat) : Int) ∈ dims →
          ext = 1) ↔
        ((((i : Nat) : Int) ∈ dims → extent = 1) ∧
          ∀ k ext, rest[k]? = some ext → ((i + 1 + k : Nat) : Int) ∈ dims → ext = 1) := by
      rw [shift]
      constructor
      · intro h
        exact ⟨fun hm => h 0 extent (by simp) (by simpa using hm), fun k ext hk hm => h (k + 1) ext hk hm⟩
      · rintro ⟨h0, hs⟩ k ext hk hm
        cases k with
        | zero =>
          simp only [List.getElem?_cons_zero, Option.some.injEq] at hk
          exact hk ▸ h0 (by simpa using hm)
        | succ k => exact hs k ext hk hm
    rw [split0]
    unfold ComputeDimsFrom
    by_cases hm : ((i : Nat) : Int) ∈ dims
    · by_cases h1 : extent = 1
      · simp only [hm, h1, if_true, List.enumFrom_cons, List.filter_cons, not_true_eq_false,
          decide_False, Bool.false_eq_true, if_false, forall_true_left, true_and]
        exact ih (i + 1) out
      · simp [hm, h1]
    · simp only [hm, if_false, List.enumFrom_cons, List.filter_cons, not_false_eq_true,
        decide_True, if_true, List.map_cons, false_implies, true_and]
      cases hrec : ComputeDimsFrom dims (i + 1) rest with
      | error e =>
        constructor
        · intro he; cases he
        · rintro ⟨hall, _⟩
          have := (ih (i + 1) _).mpr ⟨hall, rfl⟩
          rw [hrec] at this
          cases this
      | ok out2 =>
        have := (ih (i + 1) out2).mp hrec
        simp only [Except.ok.injEq]
        constructor
        · intro he
          exact ⟨this.1, by rw [← he, this.2]⟩
        · rintro ⟨_, he⟩
          rw [he, this.2]

theorem ComputeDims_ok_iff (shape : List Nat) (dims : List Int) (out : List Nat) :
    ComputeDims shape dims = .ok out ↔
      (∀ (k extent : Nat), shape[k]? = some extent → (k : Int) ∈ dims → extent = 1) ∧
        out = removeAxes shape dims := by
  have := ComputeDimsFrom_ok_iff dims 0 shape out
  simpa [ComputeDims, removeAxes, List.enum] using this

theorem ComputeDims_error_iff (shape : List Nat) (dims : List Int) :
    (∃ e, ComputeDims shape dims = .error e) ↔
      ∃ k extent : Nat, shape[k]? = some extent ∧ (k : Int) ∈ dims ∧ extent ≠ 1 := by
  constructor
  · rintro ⟨e, he⟩
    by_contra hno
    push_neg at hno
    have := (ComputeDims_ok_iff shape dims _).mpr ⟨hno, rfl⟩
    rw [he] at this
    cases this
  · rintro ⟨k, extent, hk, hm, h1⟩
    cases hcd : ComputeDims shape dims with
    | error e => exact ⟨e, rfl⟩
    | ok out => exact absurd (((ComputeDims_ok_iff shape dims out).mp hcd).1 k extent hk hm) h1

theorem enumFrom_filter_length (dims : List Int) (i : Nat) (shape : List Nat) :
    (((shape.enumFrom i).filter (fun p => decide ((p.1 : Int) ∉ dims))).map Prod.snd).length +
        ((List.range' i shape.length).filter (fun k : Nat => decide ((k : Int) ∈ dims))).length
      = shape.length := by
  induction shape generalizing i with
  | nil => simp
  | cons extent rest ih =>
    have := ih (i + 1)
    by_cases hm : ((i : Nat) : Int) ∈ dims
    · simp only [List.enumFrom_cons, List.filter_cons, hm, not_true_eq_false, decide_False,
        Bool.false_eq_true, if_false, List.length_cons, List.range'_succ, decide_True, if_true]
      omega
    · simp only [List.enumFrom_cons, List.filter_cons, hm, not_false_eq_true, decide_True,
        if_true, List.map_cons, List.length_cons, List.range'_succ, decide_False,
        Bool.false_eq_true, if_false]
      omega

theorem targeted_axes_length (dims : List Int) (n : Nat) (hnd : dims.Nodup)
    (hin : ∀ d ∈ dims, 0 ≤ d ∧ d.toNat < n) :
    ((List.range' 0 n).filter (fun k : Nat => decide ((k : Int) ∈ dims))).length = dims.length := by
  rw [← List.range_eq_range', ← List.length_map dims Int.toNat]
  apply List.Perm.length_eq
  refine (List.perm_ext_iff_of_nodup ((List.nodup_range n).filter _) ?_).mpr ?_
  · refine List.Nodup.map_on ?_ hnd
    intro x hx y hy hxy
    rw [← Int.toNat_of_nonneg (hin x hx).1, ← Int.toNat_of_nonneg (hin y hy).1, hxy]
  · intro k
    simp only [List.mem_filter, List.mem_range, decide_eq_true_eq, List.mem_map]
    constructor
    · rintro ⟨_, hk⟩
      exact ⟨(k : Int), hk, Int.toNat_natCast k⟩
    · rintro ⟨d, hd, rfl⟩
      exact ⟨(hin d hd).2, by rw [Int.toNat_of_nonneg (hin d hd).1]; exact hd⟩

theorem removeAxes_length (shape : List Nat) (dims : List Int) (hnd : dims.Nodup)
    (hin : ∀ d ∈ dims, 0 ≤ d ∧ d.toNat < shape.length) :
    (removeAxes shape dims).length + dims.length = shape.length := by
  have h1 := enumFrom_filter_length dims 0 shape
  rw [targeted_axes_length dims shape.length hnd hin] at h1
  simpa [removeAxes, List.enum] using h1

/-! ## One invocation, case by case -/

theorem RunOnDevice_rank_fail {α : Type} (eng : LayoutEngine α) (op : MKLSqueezeOp α)
    (X Y : MKLMemory α) (h : ¬ (back op.dims_ < (X.ndim : Int))) :
    op.RunOnDevice eng X Y =
      { outcome := .error (.rankTooLow (int_add (back op.dims_) 1)), op := op, Y := Y,
        reallocated := false } := by
  simp only [MKLSqueezeOp.RunOnDevice, gt_iff_lt, h, not_false_eq_true, if_true]

theorem int_add_eq (a b : Int) (hlo : -2147483648 ≤ a + b) (hhi : a + b < 2147483648) :
    int_add a b = a + b := by
  unfold int_add
  omega

theorem RunOnDevice_compute_fail {α : Type} (eng : LayoutEngine α) (op : MKLSqueezeOp α)
    (X Y : MKLMemory α) (e : Error) (h : back op.dims_ < (X.ndim : Int))
    (hcd : ComputeDims X.dims op.dims_ = .error e) :
    op.RunOnDevice eng X Y = { outcome := .error e, op := op, Y := Y, reallocated := false } := by
  simp only [MKLSqueezeOp.RunOnDevice, gt_iff_lt, h, not_true_eq_false, if_false, hcd]

theorem RunOnDevice_past_checks {α : Type} (eng : LayoutEngine α) (op : MKLSqueezeOp α)
    (X Y : MKLMemory α) (new_dims : List Nat) (h : back op.dims_ < (X.ndim : Int))
    (hcd : ComputeDims X.dims op.dims_ = .ok new_dims) :
    (∀ e, (op.RunOnDevice eng X Y).outcome = .error e → e.isShapeError = false) ∧
    ((op.RunOnDevice eng X Y).outcome = .ok () →
      (op.RunOnDevice eng X Y).Y.dims = new_dims ∧
      (op.RunOnDevice eng X Y).Y.data = X.data ∧
      (op.RunOnDevice eng X Y).Y.sharesBuffer = true ∧
      ∃ buf, (op.RunOnDevice eng X Y).op.buffer_ = some buf ∧ buf.data = X.data) := by
  simp only [MKLSqueezeOp.RunOnDevice, gt_iff_lt, h, not_true_eq_false, if_false, hcd]
  split
  · refine ⟨?_, ?_⟩
    · intro e he; cases he; rfl
    · intro he; cases he
  · split
    · refine ⟨?_, ?_⟩
      · intro e he; cases he; rfl
      · intro he; cases he
    · split
      · refine ⟨?_, ?_⟩
        · intro e he; cases he; rfl
        · intro he; cases he
      · refine ⟨?_, ?_⟩
        · intro e he; cases he
        · intro _
          exact ⟨rfl, rfl, rfl, _, rfl, rfl⟩

/-- What construction guarantees about `dims_` for every invocation. -/
theorem constructed_dims_facts (α : Type) (raw : List Int) (op0 : MKLSqueezeOp α)
    (h : (MKLSqueezeOp.construct α raw).result = .ok op0) :
    op0.dims_ ≠ [] ∧ op0.dims_.Nodup ∧ (∀ d ∈ op0.dims_, 0 ≤ d) ∧
      back op0.dims_ ∈ op0.dims_ ∧ (∀ d ∈ op0.dims_, d ≤ back op0.dims_) := by
  obtain ⟨⟨hne, hall⟩, rfl⟩ := (construct_result_ok_iff α raw op0).mp h
  have hne2 : std_unique (std_sort raw) ≠ [] := std_unique_ne_nil (std_sort_ne_nil hne)
  exact ⟨hne2, (normalized_sorted raw).nodup, fun d hd => hall d ((mem_normalized raw d).mp hd),
    back_mem hne2, fun d hd => le_back_of_sorted (normalized_sorted raw) hd⟩

theorem targeted_axes_in_range (dims : List Int) (n : Nat)
    (hnn : ∀ d ∈ dims, 0 ≤ d) (hmax : ∀ d ∈ dims, d ≤ back dims) (hr : back dims < (n : Int)) :
    ∀ d ∈ dims, 0 ≤ d ∧ d.toNat < n := by
  intro d hd
  have h0 := hnn d hd
  have h1 := hmax d hd
  exact ⟨h0, by omega⟩

theorem exists_nonsingleton_iff (shape : List Nat) (dims : List Int)
    (hin : ∀ d ∈ dims, 0 ≤ d ∧ d.toNat < shape.length) :
    (∃ k extent : Nat, shape[k]? = some extent ∧ (k : Int) ∈ dims ∧ extent ≠ 1) ↔
      ∃ d ∈ dims, shape[d.toNat]? ≠ some 1 := by
  constructor
  · rintro ⟨k, extent, hk, hm, h1⟩
    refine ⟨(k : Int), hm, ?_⟩
    rw [Int.toNat_natCast, hk]
    intro he
    exact h1 (Option.some.inj he)
  · rintro ⟨d, hd, hne⟩
    obtain ⟨h0, hlt⟩ := hin d hd
    refine ⟨d.toNat, shape[d.toNat], List.getElem?_eq_getElem hlt, ?_, ?_⟩
    · rw [Int.toNat_of_nonneg h0]; exact hd
    · intro he
      exact hne (by rw [List.getElem?_eq_getElem hlt, he])

theorem not_rankError_of_singletonError (e : Error) (h : e.isSingletonError = true) :
    e.isRankError = false := by
  cases e <;> first | rfl | cases h

theorem not_rankError_of_not_shapeError (e : Error) (h : e.isShapeError = false) :
    e.isRankError = false := by
  cases e <;> first | rfl | cases h

theorem not_singletonError_of_not_shapeError (e : Error) (h : e.isShapeError = false) :
    e.isSingletonError = false := by
  cases e <;> first | rfl | cases h

theorem shapeError_of_singletonError (e : Error) (h : e.isSingletonError = true) :
    e.isShapeError = true := by
  cases e <;> first | rfl | cases h

/-- Past the rank check, an invocation never reports the rank error. -/
theorem RunOnDevice_no_rank_error {α : Type} (eng : LayoutEngine α) (op : MKLSqueezeOp α)
    (X Y : MKLMemory α) (h : back op.dims_ < (X.ndim : Int)) (e : Error)
    (he : (op.RunOnDevice eng X Y).outcome = .error e) : e.isRankError = false := by
  cases hcd : ComputeDims X.dims op.dims_ with
  | error e2 =>
    rw [RunOnDevice_compute_fail eng op X Y e2 h hcd] at he
    cases he
    exact not_rankError_of_singletonError _ (ComputeDimsFrom_error _ _ _ _ hcd)
  | ok new_dims =>
    exact not_rankError_of_not_shapeError _
      ((RunOnDevice_past_checks eng op X Y new_dims h hcd).1 e he)

/-- An invocation that returns has passed the rank check and obtained the
squeezed shape from the shape computation. -/
theorem RunOnDevice_ok_checks {α : Type} (eng : LayoutEngine α) (op : MKLSqueezeOp α)
    (X Y : MKLMemory α) (hs : (op.RunOnDevice eng X Y).outcome = .ok ()) :
    back op.dims_ < (X.ndim : Int) ∧ ∃ new_dims, ComputeDims X.dims op.dims_ = .ok new_dims := by
  by_cases h : back op.dims_ < (X.ndim : Int)
  · refine ⟨h, ?_⟩
    cases hcd : ComputeDims X.dims op.dims_ with
    | error e =>
      rw [RunOnDevice_compute_fail eng op X Y e h hcd] at hs
      cases hs
    | ok new_dims => exact ⟨new_dims, rfl⟩
  · rw [RunOnDevice_rank_fail eng op X Y h] at hs
    cases hs

/-! ## Invocation -/

/-- C6: for an operator that was constructed and every input tensor, the
invocation fails with the rank error "Input needs at least `dims_.back() + 1`
dimensions" exactly when the input's rank is at most `dims_.back()`, the
largest index of `dims_`; the extents of the input play no part.  The number
in the message is the `int` value of `dims_.back() + 1`: the largest index
plus one for every index below `INT_MAX`, and `INT_MIN` at `INT_MAX`. -/
theorem RunOnDevice_rank_error_iff (α : Type) (eng : LayoutEngine α) (raw : List Int)
    (op0 op : MKLSqueezeOp α) (X Y : MKLMemory α)
    (hc : (MKLSqueezeOp.construct α raw).result = .ok op0) (hop : op.dims_ = op0.dims_) :
    back op.dims_ ∈ op.dims_ ∧ (∀ d ∈ op.dims_, d ≤ back op.dims_) ∧
    ((op.RunOnDevice eng X Y).outcome = .error (.rankTooLow (int_add (back op.dims_) 1)) ↔
        (X.ndim : Int) ≤ back op.dims_) ∧
    ((∃ e, (op.RunOnDevice eng X Y).outcome = .error e ∧ e.isRankError = true) ↔
        (X.ndim : Int) ≤ back op.dims_) ∧
    (back op.dims_ < 2147483647 → int_add (back op.dims_) 1 = back op.dims_ + 1) ∧
    int_add 2147483647 1 = -2147483648 := by
  obtain ⟨_, _, hnn, hmem, hmax⟩ := constructed_dims_facts α raw op0 hc
  rw [← hop] at hmem hmax hnn
  refine ⟨hmem, hmax, ?_, ?_, ?_, by decide⟩
  · constructor
    · intro he
      by_contra hlt
      have := RunOnDevice_no_rank_error eng op X Y (not_le.mp hlt) _ he
      cases this
    · intro hle
      rw [RunOnDevice_rank_fail eng op X Y (not_lt.mpr hle)]
  · constructor
    · rintro ⟨e, he, hre⟩
      by_contra hlt
      have := RunOnDevice_no_rank_error eng op X Y (not_le.mp hlt) e he
      rw [this] at hre
      cases hre
    · intro hle
      rw [RunOnDevice_rank_fail eng op X Y (not_lt.mpr hle)]
      exact ⟨_, rfl, rfl⟩
  · intro hlt
    have h0 := hnn _ hmem
    exact int_add_eq _ _ (by omega) (by omega)

/-- Witness of C6: an input of rank 2 with `dims=[5]` fails, and the message
asks for at least 6 dimensions; with `dims=[2147483647]` it fails too, and the
number in the message is `-2147483648`. -/
theorem RunOnDevice_rank_error_iff_witness :
    (MKLSqueezeOp.RunOnDevice (plainEngine Nat)
        { dims_ := [5], cached_input_dims_ := [], buffer_ := none }
        (tensor [2, 3] [1, 2, 3, 4, 5, 6]) (tensor [] [])).outcome
      = .error (.rankTooLow 6) ∧
    (MKLSqueezeOp.RunOnDevice (plainEngine Nat)
        { dims_ := [2147483647], cached_input_dims_ := [], buffer_ := none }
        (tensor [2, 3] [1, 2, 3, 4, 5, 6]) (tensor [] [])).outcome
      = .error (.rankTooLow (-2147483648)) :=
  ⟨(RunOnDevice_rank_error_iff Nat (plainEngine Nat) [5]
      { dims_ := [5], cached_input_dims_ := [], buffer_ := none }
      { dims_ := [5], cached_input_dims_ := [], buffer_ := none }
      (tensor [2, 3] [1, 2, 3, 4, 5, 6]) (tensor [] []) (by rfl) rfl).2.2.1.mpr (by decide),
    (RunOnDevice_rank_error_iff Nat (plainEngine Nat) [2147483647]
      { dims_ := [2147483647], cached_input_dims_ := [], buffer_ := none }
      { dims_ := [2147483647], cached_input_dims_ := [], buffer_ := none }
      (tensor [2, 3] [1, 2, 3, 4, 5, 6]) (tensor [] []) (by rfl) rfl).2.2.1.mpr (by decide)⟩

/-- C7: for an operator that was constructed and an input that passes the
rank check, every index of `dims_` designates an axis of the input, and the
shape computation fails, with the `ShapeError` of a non-singleton axis, exactly
when some index of `dims_` designates an axis whose extent is not 1. -/
theorem RunOnDevice_singleton_error_iff (α : Type) (eng : LayoutEngine α) (raw : List Int)
    (op0 op : MKLSqueezeOp α) (X Y : MKLMemory α)
    (hc : (MKLSqueezeOp.construct α raw).result = .ok op0) (hop : op.dims_ = op0.dims_)
    (hr : back op.dims_ < (X.ndim : Int)) :
    (∀ d ∈ op.dims_, 0 ≤ d ∧ d.toNat < X.ndim) ∧
    ((∃ e, ComputeDims X.dims op.dims_ = .error e) ↔
        ∃ d ∈ op.dims_, X.dims[d.toNat]? ≠ some 1) ∧
    ((∃ e, (op.RunOnDevice eng X Y).outcome = .error e ∧ e.isSingletonError = true) ↔
        ∃ d ∈ op.dims_, X.dims[d.toNat]? ≠ some 1) ∧
    ((∃ e, (op.RunOnDevice eng X Y).outcome = .error e ∧ e.isShapeError = true) ↔
        ∃ d ∈ op.dims_, X.dims[d.toNat]? ≠ some 1) := by
  obtain ⟨_, _, hnn, _, hmax⟩ := constructed_dims_facts α raw op0 hc
  rw [← hop] at hnn hmax
  have hin : ∀ d ∈ op.dims_, 0 ≤ d ∧ d.toNat < X.dims.length :=
    targeted_axes_in_range op.dims_ X.dims.length hnn hmax hr
  have hiff := (ComputeDims_error_iff X.dims op.dims_).trans
    (exists_nonsingleton_iff X.dims op.dims_ hin)
  have hrun : ∀ p : Error → Bool, (∀ e, e.isSingletonError = true → p e = true) →
      (∀ e, e.isShapeError = false → p e = false) →
      ((∃ e, (op.RunOnDevice eng X Y).outcome = .error e ∧ p e = true) ↔
        ∃ e, ComputeDims X.dims op.dims_ = .error e) := by
    intro p hp1 hp2
    cases hcd : ComputeDims X.dims op.dims_ with
    | error e2 =>
      rw [RunOnDevice_compute_fail eng op X Y e2 hr hcd]
      exact ⟨fun _ => ⟨e2, rfl⟩,
        fun _ => ⟨e2, rfl, hp1 _ (ComputeDimsFrom_error _ _ _ _ hcd)⟩⟩
    | ok new_dims =>
      constructor
      · rintro ⟨e, he, hpe⟩
        have := hp2 e ((RunOnDevice_past_checks eng op X Y new_dims hr hcd).1 e he)
        rw [this] at hpe
        cases hpe
      · rintro ⟨e, he⟩
        cases he
  refine ⟨hin, hiff, ?_, ?_⟩
  · exact (hrun Error.isSingletonError (fun _ h => h)
      not_singletonError_of_not_shapeError).trans hiff
  · exact (hrun Error.isShapeError shapeError_of_singletonError (fun _ h => h)).trans hiff

/-- Witness of C7: the input shape `[2,3]` with `dims=[0]` passes the rank
check and fails in the shape computation, axis 0 having extent 2. -/
theorem RunOnDevice_singleton_error_iff_witness :
    (MKLSqueezeOp.RunOnDevice (plainEngine Nat)
        { dims_ := [0], cached_input_dims_ := [], buffer_ := none }
        (tensor [2, 3] [1, 2, 3, 4, 5, 6]) (tensor [] [])).outcome
      = .error (.nonSingleton 0 2) ∧
    ∃ e, (MKLSqueezeOp.RunOnDevice (plainEngine Nat)
        { dims_ := [0], cached_input_dims_ := [], buffer_ := none }
        (tensor [2, 3] [1, 2, 3, 4, 5, 6]) (tensor [] [])).outcome = .error e ∧
      e.isShapeError = true :=
  ⟨by rfl,
    (RunOnDevice_singleton_error_iff Nat (plainEngine Nat) [0]
      { dims_ := [0], cached_input_dims_ := [], buffer_ := none }
      { dims_ := [0], cached_input_dims_ := [], buffer_ := none }
      (tensor [2, 3] [1, 2, 3, 4, 5, 6]) (tensor [] []) (by rfl) rfl (by decide)).2.2.2.mpr
      ⟨0, by decide, by decide⟩⟩

/-- C8: for an operator that was constructed, an invocation that returns
leaves an output whose shape is the input's shape with exactly the axes listed
in `dims_` removed, the other extents in their order; every removed axis is an
axis of the input of extent 1, and the output's rank is the input's rank minus
the number of entries of `dims_`. -/
theorem RunOnDevice_output_shape (α : Type) (eng : LayoutEngine α) (raw : List Int)
    (op0 op : MKLSqueezeOp α) (X Y : MKLMemory α)
    (hc : (MKLSqueezeOp.construct α raw).result = .ok op0) (hop : op.dims_ = op0.dims_)
    (hs : (op.RunOnDevice eng X Y).outcome = .ok ()) :
    (op.RunOnDevice eng X Y).Y.dims = removeAxes X.dims op.dims_ ∧
    (∀ d ∈ op.dims_, 0 ≤ d ∧ d.toNat < X.ndim ∧ X.dims[d.toNat]? = some 1) ∧
    (op.RunOnDevice eng X Y).Y.ndim + op.dims_.length = X.ndim ∧
    (op.RunOnDevice eng X Y).Y.ndim = X.ndim - op.dims_.length := by
  obtain ⟨_, hnd, hnn, _, hmax⟩ := constructed_dims_facts α raw op0 hc
  rw [← hop] at hnd hnn hmax
  obtain ⟨hr, new_dims, hcd⟩ := RunOnDevice_ok_checks eng op X Y hs
  have hin : ∀ d ∈ op.dims_, 0 ≤ d ∧ d.toNat < X.dims.length :=
    targeted_axes_in_range op.dims_ X.dims.length hnn hmax hr
  obtain ⟨hall, hnew⟩ := (ComputeDims_ok_iff X.dims op.dims_ new_dims).mp hcd
  have hY : (op.RunOnDevice eng X Y).Y.dims = removeAxes X.dims op.dims_ := by
    rw [((RunOnDevice_past_checks eng op X Y new_dims hr hcd).2 hs).1, hnew]
  have hlen := removeAxes_length X.dims op.dims_ hnd hin
  refine ⟨hY, ?_, ?_, ?_⟩
  · intro d hd
    obtain ⟨h0, hlt⟩ := hin d hd
    refine ⟨h0, hlt, ?_⟩
    rw [List.getElem?_eq_getElem hlt]
    congr 1
    exact hall d.toNat _ (List.getElem?_eq_getElem hlt)
      (by rw [Int.toNat_of_nonneg h0]; exact hd)
  · simp only [MKLMemory.ndim, hY]
    exact hlen
  · simp only [MKLMemory.ndim, hY]
    omega

/-- Witness of C8: the input shape `[2,1,3]` with `dims_ = [1]` gives the
output shape `[2,3]`, and `[1,3,1,5]` with `dims_ = [0,2]` gives `[3,5]`. -/
theorem RunOnDevice_output_shape_witness :
    (MKLSqueezeOp.RunOnDevice (plainEngine Nat)
        { dims_ := [1], cached_input_dims_ := [], buffer_ := none }
        (tensor [2, 1, 3] [1, 2, 3, 4, 5, 6]) (tensor [] [])).Y.dims = [2, 3] ∧
    (MKLSqueezeOp.RunOnDevice (plainEngine Nat)
        { dims_ := [0, 2], cached_input_dims_ := [], buffer_ := none }
        (tensor [1, 3, 1, 5] (List.range 15)) (tensor [] [])).Y.dims = [3, 5] ∧
    (MKLSqueezeOp.RunOnDevice (plainEngine Nat)
        { dims_ := [0, 2], cached_input_dims_ := [], buffer_ := none }
        (tensor [1, 3, 1, 5] (List.range 15)) (tensor [] [])).Y.ndim = 4 - 2 :=
  ⟨(RunOnDevice_output_shape Nat (plainEngine Nat) [1]
      { dims_ := [1], cached_input_dims_ := [], buffer_ := none }
      { dims_ := [1], cached_input_dims_ := [], buffer_ := none }
      (tensor [2, 1, 3] [1, 2, 3, 4, 5, 6]) (tensor [] []) (by rfl) rfl (by rfl)).1,
    (RunOnDevice_output_shape Nat (plainEngine Nat) [2, 0]
      { dims_ := [0, 2], cached_input_dims_ := [], buffer_ := none }
      { dims_ := [0, 2], cached_input_dims_ := [], buffer_ := none }
      (tensor [1, 3, 1, 5] (List.range 15)) (tensor [] []) (by rfl) rfl (by rfl)).1,
    (RunOnDevice_output_shape Nat (plainEngine Nat) [2, 0]
      { dims_ := [0, 2], cached_input_dims_ := [], buffer_ := none }
      { dims_ := [0, 2], cached_input_dims_ := [], buffer_ := none }
      (tensor [1, 3, 1, 5] (List.range 15)) (tensor [] []) (by rfl) rfl (by rfl)).2.2.2⟩

/-- C9: an invocation that returns leaves in the output the element values of
the input, in the same row-major logical order: the conversion buffer holds a
copy of the input's data, the output shares the buffer's storage, and
`Reshape` leaves the data as it is. -/
theorem RunOnDevice_output_data (α : Type) (eng : LayoutEngine α) (op : MKLSqueezeOp α)
    (X Y : MKLMemory α) (hs : (op.RunOnDevice eng X Y).outcome = .ok ()) :
    (op.RunOnDevice eng X Y).Y.data = X.data ∧
    (op.RunOnDevice eng X Y).Y.sharesBuffer = true ∧
    (∃ buf, (op.RunOnDevice eng X Y).op.buffer_ = some buf ∧ buf.data = X.data ∧
      (op.RunOnDevice eng X Y).Y.data = buf.data) ∧
    (∀ (T : MKLMemory α) (new_dims : List Nat), (T.Reshape new_dims).data = T.data) := by
  obtain ⟨hr, new_dims, hcd⟩ := RunOnDevice_ok_checks eng op X Y hs
  obtain ⟨_, hdata, hshare, buf, hbuf, hbd⟩ :=
    (RunOnDevice_past_checks eng op X Y new_dims hr hcd).2 hs
  exact ⟨hdata, hshare, ⟨buf, hbuf, hbd, hdata.trans hbd.symm⟩, fun _ _ => rfl⟩

/-- Witness of C9: the input of shape `[2,1,3]` holding `1..6`, squeezed at
axis 1. -/
theorem RunOnDevice_output_data_witness :
    (MKLSqueezeOp.RunOnDevice (plainEngine Nat)
        { dims_ := [1], cached_input_dims_ := [], buffer_ := none }
        (tensor [2, 1, 3] [1, 2, 3, 4, 5, 6]) (tensor [] [])).Y.data = [1, 2, 3, 4, 5, 6] :=
  (RunOnDevice_output_data Nat (plainEngine Nat)
    { dims_ := [1], cached_input_dims_ := [], buffer_ := none }
    (tensor [2, 1, 3] [1, 2, 3, 4, 5, 6]) (tensor [] []) (by rfl)).1

/-- C10: an invocation that fails with a `ShapeError` (rank too low, or a
targeted axis of extent other than 1) leaves the data members of the operator
(`dims_`, `cached_input_dims_`, `buffer_`) and the output tensor as they were,
and has not reallocated the buffer. -/
theorem RunOnDevice_shape_error_unchanged (α : Type) (eng : LayoutEngine α)
    (op : MKLSqueezeOp α) (X Y : MKLMemory α) (e : Error)
    (he : (op.RunOnDevice eng X Y).outcome = .error e) (hse : e.isShapeError = true) :
    (op.RunOnDevice eng X Y).op = op ∧ (op.RunOnDevice eng X Y).Y = Y ∧
      (op.RunOnDevice eng X Y).reallocated = false := by
  by_cases h : back op.dims_ < (X.ndim : Int)
  · cases hcd : ComputeDims X.dims op.dims_ with
    | error e2 =>
      rw [RunOnDevice_compute_fail eng op X Y e2 h hcd]
      exact ⟨rfl, rfl, rfl⟩
    | ok new_dims =>
      have := (RunOnDevice_past_checks eng op X Y new_dims h hcd).1 e he
      rw [this] at hse
      cases hse
  · rw [RunOnDevice_rank_fail eng op X Y h]
    exact ⟨rfl, rfl, rfl⟩

/-- Witness of C10: an operator with `dims_ = [0]` that has served an input of
shape `[1,2]` is invoked on an input of shape `[2,3]` (axis 0 is not a
singleton) and on an input of rank 0. -/
theorem RunOnDevice_shape_error_unchanged_witness :
    ((MKLSqueezeOp.RunOnDevice (plainEngine Nat)
        { dims_ := [0], cached_input_dims_ := [1, 2], buffer_ := some (tensor [1, 2] [7, 8]) }
        (tensor [2, 3] [1, 2, 3, 4, 5, 6]) (tensor [2] [7, 8])).op
      = { dims_ := [0], cached_input_dims_ := [1, 2], buffer_ := some (tensor [1, 2] [7, 8]) } ∧
    (MKLSqueezeOp.RunOnDevice (plainEngine Nat)
        { dims_ := [0], cached_input_dims_ := [1, 2], buffer_ := some (tensor [1, 2] [7, 8]) }
        (tensor [2, 3] [1, 2, 3, 4, 5, 6]) (tensor [2] [7, 8])).Y = tensor [2] [7, 8] ∧
    (MKLSqueezeOp.RunOnDevice (plainEngine Nat)
        { dims_ := [0], cached_input_dims_ := [1, 2], buffer_ := some (tensor [1, 2] [7, 8]) }
        (tensor [2, 3] [1, 2, 3, 4, 5, 6]) (tensor [2] [7, 8])).reallocated = false) ∧
    (MKLSqueezeOp.RunOnDevice (plainEngine Nat)
        { dims_ := [0], cached_input_dims_ := [1, 2], buffer_ := some (tensor [1, 2] [7, 8]) }
        (tensor [] [1]) (tensor [2] [7, 8])).Y = tensor [2] [7, 8] :=
  ⟨RunOnDevice_shape_error_unchanged Nat (plainEngine Nat)
      { dims_ := [0], cached_input_dims_ := [1, 2], buffer_ := some (tensor [1, 2] [7, 8]) }
      (tensor [2, 3] [1, 2, 3, 4, 5, 6]) (tensor [2] [7, 8]) (.nonSingleton 0 2) (by rfl) (by rfl),
    (RunOnDevice_shape_error_unchanged Nat (plainEngine Nat)
      { dims_ := [0], cached_input_dims_ := [1, 2], buffer_ := some (tensor [1, 2] [7, 8]) }
      (tensor [] [1]) (tensor [2] [7, 8]) (.rankTooLow 1) (by rfl) (by rfl)).2.1⟩

/-! ## The state an invocation leaves -/

theorem passesChecks_iff {α : Type} (dims_ : List Int) (X : MKLMemory α) :
    passesChecks dims_ X = true ↔
      back dims_ < (X.ndim : Int) ∧ ∃ new_dims, ComputeDims X.dims dims_ = .ok new_dims := by
  unfold passesChecks
  cases hcd : ComputeDims X.dims dims_ with
  | error e => simp
  | ok new_dims => simp

/-- An invocation stopped by one of the two checks: a `ShapeError`, and
nothing has changed. -/
theorem RunOnDevice_of_not_passes {α : Type} (eng : LayoutEngine α) (op : MKLSqueezeOp α)
    (X Y : MKLMemory α) (h : passesChecks op.dims_ X = false) :
    (op.RunOnDevice eng X Y).op = op ∧ (op.RunOnDevice eng X Y).Y = Y ∧
      (op.RunOnDevice eng X Y).reallocated = false ∧
      ∃ e, (op.RunOnDevice eng X Y).outcome = .error e ∧ e.isShapeError = true := by
  by_cases hr : back op.dims_ < (X.ndim : Int)
  · cases hcd : ComputeDims X.dims op.dims_ with
    | error e =>
      rw [RunOnDevice_compute_fail eng op X Y e hr hcd]
      exact ⟨rfl, rfl, rfl, e, rfl,
        shapeError_of_singletonError _ (ComputeDimsFrom_error _ _ _ _ hcd)⟩
    | ok new_dims =>
      have := (passesChecks_iff op.dims_ X).mpr ⟨hr, new_dims, hcd⟩
      rw [this] at h
      cases h
  · rw [RunOnDevice_rank_fail eng op X Y hr]
    exact ⟨rfl, rfl, rfl, _, rfl, rfl⟩

/-- The data members after an invocation that got past both checks: the cached
shape is the input's, the buffer was `Reset` when the shape differed from the
cached one, and the buffer, if there is one, has received the input's data. -/
theorem RunOnDevice_adapter {α : Type} (eng : LayoutEngine α) (op : MKLSqueezeOp α)
    (X Y : MKLMemory α) (h : passesChecks op.dims_ X = true) :
    (op.RunOnDevice eng X Y).op =
      { dims_ := op.dims_
        cached_input_dims_ := X.dims
        buffer_ := (if X.dims ≠ op.cached_input_dims_ then some (MKLMemory.Reset eng X.dims false)
                    else op.buffer_).map (fun buf => buf.CopyFrom X) } ∧
    (op.RunOnDevice eng X Y).reallocated = decide (X.dims ≠ op.cached_input_dims_) := by
  obtain ⟨hr, new_dims, hcd⟩ := (passesChecks_iff op.dims_ X).mp h
  by_cases hne : X.dims = op.cached_input_dims_
  · have hd : decide (X.dims ≠ op.cached_input_dims_) = false := by simp [hne]
    cases hbuf : op.buffer_ with
    | none =>
      simp only [MKLSqueezeOp.RunOnDevice, gt_iff_lt, hr, not_true_eq_false, if_false, hcd,
        CHECK_INPUT_DIMS, hd, Bool.false_eq_true, hbuf]
      simp [hne]
    | some buf =>
      simp only [MKLSqueezeOp.RunOnDevice, gt_iff_lt, hr, not_true_eq_false, if_false, hcd,
        CHECK_INPUT_DIMS, hd, Bool.false_eq_true, hbuf]
      split
      · simp [hne]
      · split <;> simp [hne]
  · have hd : decide (X.dims ≠ op.cached_input_dims_) = true := by simp [hne]
    simp only [MKLSqueezeOp.RunOnDevice, gt_iff_lt, hr, not_true_eq_false, if_false, hcd,
      CHECK_INPUT_DIMS, hd, if_true]
    split
    · simp [hne]
    · split <;> simp [hne]

/-- The output tensor left by a failed invocation, by failure site. -/
theorem RunOnDevice_error_Y {α : Type} (eng : LayoutEngine α) (op : MKLSqueezeOp α)
    (X Y : MKLMemory α) (e : Error) (he : (op.RunOnDevice eng X Y).outcome = .error e) :
    (e.isShapeError = true ∧ (op.RunOnDevice eng X Y).Y = Y) ∨
    (e = .copyUnallocated ∧ (op.RunOnDevice eng X Y).Y = Y) ∨
    ((e = .layoutMismatch ∨ e = .shareFailed) ∧
      (op.RunOnDevice eng X Y).Y = MKLMemory.Reset eng X.dims true) := by
  by_cases hp : passesChecks op.dims_ X = true
  · obtain ⟨hr, new_dims, hcd⟩ := (passesChecks_iff op.dims_ X).mp hp
    right
    revert he
    simp only [MKLSqueezeOp.RunOnDevice, gt_iff_lt, hr, not_true_eq_false, if_false, hcd]
    split
    · intro he; cases he; exact Or.inl ⟨rfl, rfl⟩
    · split
      · intro he; cases he; exact Or.inr ⟨Or.inl rfl, rfl⟩
      · split
        · intro he; cases he; exact Or.inr ⟨Or.inr rfl, rfl⟩
        · intro he; cases he
  · have hp2 : passesChecks op.dims_ X = false := by
      cases hpc : passesChecks op.dims_ X
      · rfl
      · exact absurd hpc hp
    obtain ⟨_, hY, _, e2, he2, hs⟩ := RunOnDevice_of_not_passes eng op X Y hp2
    rw [he2] at he
    cases he
    exact Or.inl ⟨hs, hY⟩

theorem passesChecks_of_ok {α : Type} (eng : LayoutEngine α) (op : MKLSqueezeOp α)
    (X Y : MKLMemory α) (hs : (op.RunOnDevice eng X Y).outcome = .ok ()) :
    passesChecks op.dims_ X = true :=
  (passesChecks_iff op.dims_ X).mpr (RunOnDevice_ok_checks eng op X Y hs)

theorem RunOnDevice_cached {α : Type} (eng : LayoutEngine α) (op : MKLSqueezeOp α)
    (X Y : MKLMemory α) :
    (op.RunOnDevice eng X Y).op.cached_input_dims_ =
      if passesChecks op.dims_ X then X.dims else op.cached_input_dims_ := by
  cases hp : passesChecks op.dims_ X
  · rw [(RunOnDevice_of_not_passes eng op X Y hp).1]
    rfl
  · rw [(RunOnDevice_adapter eng op X Y hp).1]
    rfl

theorem runMany_cached {α : Type} (eng : LayoutEngine α) (op : MKLSqueezeOp α)
    (Y : MKLMemory α) (Xs : List (MKLMemory α)) :
    (MKLSqueezeOp.runMany eng op Y Xs).1.cached_input_dims_ =
      lastAdaptedShape op.dims_ op.cached_input_dims_ Xs := by
  induction Xs generalizing op Y with
  | nil => rfl
  | cons X Xs ih =>
    rw [MKLSqueezeOp.runMany, ih, RunOnDevice_dims_, RunOnDevice_cached]
    rfl

theorem runMany_of_not_passes {α : Type} (eng : LayoutEngine α) (op : MKLSqueezeOp α)
    (Y : MKLMemory α) (Xs : List (MKLMemory α))
    (h : ∀ X ∈ Xs, passesChecks op.dims_ X = false) :
    MKLSqueezeOp.runMany eng op Y Xs = (op, Y) := by
  induction Xs with
  | nil => rfl
  | cons X Xs ih =>
    obtain ⟨hop, hY, _, _⟩ := RunOnDevice_of_not_passes eng op X Y (h X (List.mem_cons_self _ _))
    rw [MKLSqueezeOp.runMany, hop, hY]
    exact ih (fun X2 h2 => h X2 (List.mem_cons_of_mem _ h2))

theorem RunOnDevice_cacheConsistent {α : Type} (eng : LayoutEngine α) (op : MKLSqueezeOp α)
    (X Y : MKLMemory α) (h : CacheConsistent op) :
    CacheConsistent (op.RunOnDevice eng X Y).op := by
  cases hp : passesChecks op.dims_ X
  · rw [(RunOnDevice_of_not_passes eng op X Y hp).1]
    exact h
  · rw [(RunOnDevice_adapter eng op X Y hp).1]
    by_cases hne : X.dims = op.cached_input_dims_
    · unfold CacheConsistent at h ⊢
      cases hbuf : op.buffer_ with
      | none =>
        rw [hbuf] at h
        simp [hne, hbuf, h]
      | some buf =>
        rw [hbuf] at h
        simp [hne, hbuf, h, MKLMemory.CopyFrom]
    · unfold CacheConsistent
      simp [hne, MKLMemory.CopyFrom, MKLMemory.Reset]

theorem runMany_cacheConsistent {α : Type} (eng : LayoutEngine α) (op : MKLSqueezeOp α)
    (Y : MKLMemory α) (Xs : List (MKLMemory α)) (h : CacheConsistent op) :
    CacheConsistent (MKLSqueezeOp.runMany eng op Y Xs).1 := by
  induction Xs generalizing op Y with
  | nil => exact h
  | cons X Xs ih =>
    rw [MKLSqueezeOp.runMany]
    exact ih _ _ (RunOnDevice_cacheConsistent eng op X Y h)

theorem constructed_cacheConsistent (α : Type) (raw : List Int) (op0 : MKLSqueezeOp α)
    (h : (MKLSqueezeOp.construct α raw).result = .ok op0) :
    CacheConsistent op0 ∧ op0.cached_input_dims_ = [] ∧ op0.buffer_ = none ∧
      0 ≤ back op0.dims_ := by
  obtain ⟨_, _, hnn, hmem, _⟩ := constructed_dims_facts α raw op0 h
  obtain ⟨_, rfl⟩ := (construct_result_ok_iff α raw op0).mp h
  exact ⟨rfl, rfl, rfl, hnn _ hmem⟩

theorem dims_ne_nil_of_passes {α : Type} (dims_ : List Int) (X : MKLMemory α)
    (h0 : 0 ≤ back dims_) (hp : passesChecks dims_ X = true) : X.dims ≠ [] := by
  obtain ⟨hr, _⟩ := (passesChecks_iff dims_ X).mp hp
  intro hnil
  simp only [MKLMemory.ndim, hnil, List.length_nil, Nat.cast_zero] at hr
  omega

/-- With a consistent cache and a non-negative `dims_.back()`, an invocation
that gets past both checks leaves a buffer of the input's shape holding the
input's data. -/
theorem RunOnDevice_buffer_after_pass {α : Type} (eng : LayoutEngine α) (op : MKLSqueezeOp α)
    (X Y : MKLMemory α) (hinv : CacheConsistent op) (h0 : 0 ≤ back op.dims_)
    (hp : passesChecks op.dims_ X = true) :
    ∃ buf, (op.RunOnDevice eng X Y).op.buffer_ = some buf ∧ buf.dims = X.dims ∧
      buf.data = X.data := by
  rw [(RunOnDevice_adapter eng op X Y hp).1]
  by_cases hne : X.dims = op.cached_input_dims_
  · unfold CacheConsistent at hinv
    cases hbuf : op.buffer_ with
    | none =>
      rw [hbuf] at hinv
      exact absurd (hne.trans hinv) (dims_ne_nil_of_passes op.dims_ X h0 hp)
    | some buf =>
      rw [hbuf] at hinv
      exact ⟨buf.CopyFrom X, by simp [hne, hbuf], by simp [MKLMemory.CopyFrom, hinv, hne],
        rfl⟩
  · exact ⟨(MKLMemory.Reset eng X.dims false).CopyFrom X, by simp [hne], rfl, rfl⟩

theorem RunOnDevice_copyUnallocated {α : Type} (eng : LayoutEngine α) (op : MKLSqueezeOp α)
    (X Y : MKLMemory α) (he : (op.RunOnDevice eng X Y).outcome = .error .copyUnallocated) :
    (op.RunOnDevice eng X Y).op.buffer_ = none := by
  cases hp : passesChecks op.dims_ X
  · obtain ⟨_, _, _, e, he2, hs⟩ := RunOnDevice_of_not_passes eng op X Y hp
    rw [he2] at he
    cases he
    cases hs
  · obtain ⟨hr, new_dims, hcd⟩ := (passesChecks_iff op.dims_ X).mp hp
    revert he
    simp only [MKLSqueezeOp.RunOnDevice, gt_iff_lt, hr, not_true_eq_false, if_false, hcd]
    split
    · next hb => intro _; exact hb
    · split
      · intro he; cases he
      · split
        · intro he; cases he
        · intro he; cases he

theorem ComputeDimsFrom_prod (dims : List Int) (i : Nat) (shape out : List Nat)
    (h : ComputeDimsFrom dims i shape = .ok out) : out.prod = shape.prod := by
  induction shape generalizing i out with
  | nil =>
    simp only [ComputeDimsFrom, Except.ok.injEq] at h
    rw [← h]
  | cons extent rest ih =>
    unfold ComputeDimsFrom at h
    split at h
    · split at h
      · next h1 => rw [ih _ _ h, h1, List.prod_cons, one_mul]
      · cases h
    · split at h
      · next out2 hrec =>
        cases h
        rw [List.prod_cons, List.prod_cons, ih _ _ hrec]
      · cases h

/-! ## Failure, caching and the state machine -/

/-- Counterexample to C11: with a layout engine whose layout check fails, the
invocation fails with `layoutMismatch` and the output tensor is no longer the
one the invocation found: it has been `Reset` to the input's shape. -/
theorem RunOnDevice_layout_mismatch_alters_output :
    (MKLSqueezeOp.RunOnDevice (strictEngine Nat)
        { dims_ := [1], cached_input_dims_ := [], buffer_ := none }
        (tensor [2, 1, 3] [1, 2, 3, 4, 5, 6]) (tensor [2] [7, 8])).outcome
      = .error .layoutMismatch ∧
    (MKLSqueezeOp.RunOnDevice (strictEngine Nat)
        { dims_ := [1], cached_input_dims_ := [], buffer_ := none }
        (tensor [2, 1, 3] [1, 2, 3, 4, 5, 6]) (tensor [2] [7, 8])).Y ≠ tensor [2] [7, 8] :=
  ⟨by rfl, by decide⟩

/-- C11, amended: an invocation that fails with a `ShapeError` leaves the
output tensor as it was; one that fails in the layout check or in the aliasing
has already `Reset` the output to the input's shape with an empty allocation,
and that is the output it leaves.  No failed invocation leaves an output of the
squeezed shape or one that shares the buffer's storage. -/
theorem RunOnDevice_failure_output (α : Type) (eng : LayoutEngine α) (op : MKLSqueezeOp α)
    (X Y : MKLMemory α) (e : Error) (he : (op.RunOnDevice eng X Y).outcome = .error e) :
    (e.isShapeError = true → (op.RunOnDevice eng X Y).Y = Y) ∧
    (e = .layoutMismatch ∨ e = .shareFailed →
      (op.RunOnDevice eng X Y).Y = MKLMemory.Reset eng X.dims true) ∧
    ((op.RunOnDevice eng X Y).Y = Y ∨
      (op.RunOnDevice eng X Y).Y = MKLMemory.Reset eng X.dims true) := by
  rcases RunOnDevice_error_Y eng op X Y e he with ⟨hs, hY⟩ | ⟨hcu, hY⟩ | ⟨hl, hY⟩
  · refine ⟨fun _ => hY, ?_, Or.inl hY⟩
    rintro (h | h) <;> (rw [h] at hs; cases hs)
  · refine ⟨fun _ => hY, ?_, Or.inl hY⟩
    rintro (h | h) <;> (rw [h] at hcu; cases hcu)
  · exact ⟨fun hs => by rcases hl with h | h <;> (rw [h] at hs; cases hs), fun _ => hY,
      Or.inr hY⟩

/-- Witness of C11 (amended): a failed layout check leaves the `Reset` output,
a failed aliasing too, and a rank error leaves the output found. -/
theorem RunOnDevice_failure_output_witness :
    (MKLSqueezeOp.RunOnDevice (strictEngine Nat)
        { dims_ := [1], cached_input_dims_ := [], buffer_ := none }
        (tensor [2, 1, 3] [1, 2, 3, 4, 5, 6]) (tensor [2] [7, 8])).Y
      = MKLMemory.Reset (strictEngine Nat) [2, 1, 3] true ∧
    (MKLSqueezeOp.RunOnDevice (noShareEngine Nat)
        { dims_ := [1], cached_input_dims_ := [], buffer_ := none }
        (tensor [2, 1, 3] [1, 2, 3, 4, 5, 6]) (tensor [2] [7, 8])).Y
      = MKLMemory.Reset (noShareEngine Nat) [2, 1, 3] true ∧
    (MKLSqueezeOp.RunOnDevice (strictEngine Nat)
        { dims_ := [1], cached_input_dims_ := [], buffer_ := none }
        (tensor [4] [1, 2, 3, 4]) (tensor [2] [7, 8])).Y = tensor [2] [7, 8] :=
  ⟨(RunOnDevice_failure_output Nat (strictEngine Nat)
      { dims_ := [1], cached_input_dims_ := [], buffer_ := none }
      (tensor [2, 1, 3] [1, 2, 3, 4, 5, 6]) (tensor [2] [7, 8]) .layoutMismatch (by rfl)).2.1
      (Or.inl rfl),
    (RunOnDevice_failure_output Nat (noShareEngine Nat)
      { dims_ := [1], cached_input_dims_ := [], buffer_ := none }
      (tensor [2, 1, 3] [1, 2, 3, 4, 5, 6]) (tensor [2] [7, 8]) .shareFailed (by rfl)).2.1
      (Or.inr rfl),
    (RunOnDevice_failure_output Nat (strictEngine Nat)
      { dims_ := [1], cached_input_dims_ := [], buffer_ := none }
      (tensor [4] [1, 2, 3, 4]) (tensor [2] [7, 8]) (.rankTooLow 2) (by rfl)).1 (by rfl)⟩

/-- C12: of two consecutive invocations that both return and whose inputs have
the same shape, the second does not `Reset` the conversion buffer and leaves
the cached input shape as the first left it; it only copies the new data into
the same buffer. -/
theorem RunOnDevice_same_shape_no_realloc (α : Type) (eng : LayoutEngine α)
    (op : MKLSqueezeOp α) (X1 X2 Y : MKLMemory α)
    (h1 : (op.RunOnDevice eng X1 Y).outcome = .ok ())
    (hshape : X2.dims = X1.dims)
    (h2 : ((op.RunOnDevice eng X1 Y).op.RunOnDevice eng X2 (op.RunOnDevice eng X1 Y).Y).outcome
      = .ok ()) :
    ((op.RunOnDevice eng X1 Y).op.RunOnDevice eng X2 (op.RunOnDevice eng X1 Y).Y).reallocated
      = false ∧
    ((op.RunOnDevice eng X1 Y).op.RunOnDevice eng X2
        (op.RunOnDevice eng X1 Y).Y).op.cached_input_dims_
      = (op.RunOnDevice eng X1 Y).op.cached_input_dims_ ∧
    (∃ buf1, (op.RunOnDevice eng X1 Y).op.buffer_ = some buf1 ∧
      ((op.RunOnDevice eng X1 Y).op.RunOnDevice eng X2 (op.RunOnDevice eng X1 Y).Y).op.buffer_
        = some (buf1.CopyFrom X2)) := by
  have hp1 := passesChecks_of_ok eng op X1 Y h1
  have hp2 := passesChecks_of_ok eng _ X2 _ h2
  have hc1 : (op.RunOnDevice eng X1 Y).op.cached_input_dims_ = X1.dims := by
    rw [RunOnDevice_cached, hp1]; rfl
  have heq : X2.dims = (op.RunOnDevice eng X1 Y).op.cached_input_dims_ := by
    rw [hc1, hshape]
  obtain ⟨hr, new_dims, hcd⟩ := (passesChecks_iff op.dims_ X1).mp hp1
  obtain ⟨_, _, _, buf1, hbuf1, _⟩ := (RunOnDevice_past_checks eng op X1 Y new_dims hr hcd).2 h1
  obtain ⟨hop2, hre2⟩ := RunOnDevice_adapter eng _ X2 (op.RunOnDevice eng X1 Y).Y hp2
  refine ⟨?_, ?_, buf1, hbuf1, ?_⟩
  · rw [hre2]
    simp [heq]
  · rw [hop2]
    exact heq
  · rw [hop2]
    simp [heq, hbuf1]

/-- Witness of C12: two inputs of shape `[1,2]` in a row. -/
theorem RunOnDevice_same_shape_no_realloc_witness :
    (MKLSqueezeOp.RunOnDevice (plainEngine Nat)
        (MKLSqueezeOp.RunOnDevice (plainEngine Nat)
          { dims_ := [0], cached_input_dims_ := [], buffer_ := none }
          (tensor [1, 2] [1, 2]) (tensor [] [])).op
        (tensor [1, 2] [3, 4])
        (MKLSqueezeOp.RunOnDevice (plainEngine Nat)
          { dims_ := [0], cached_input_dims_ := [], buffer_ := none }
          (tensor [1, 2] [1, 2]) (tensor [] [])).Y).reallocated = false :=
  (RunOnDevice_same_shape_no_realloc Nat (plainEngine Nat)
    { dims_ := [0], cached_input_dims_ := [], buffer_ := none }
    (tensor [1, 2] [1, 2]) (tensor [1, 2] [3, 4]) (tensor [] []) (by rfl) rfl (by rfl)).1

/-- Counterexample to C13: after an input of shape `[1,2]` was served and an
input of shape `[2,3]` was refused (axis 0 is not a singleton), an input of
shape `[1,2]` reaches the copy step with a shape that differs from that of the
immediately preceding invocation's input, and the buffer is not reallocated. -/
theorem RunOnDevice_no_realloc_after_refused_input :
    (tensor [1, 2] [5, 6] : MKLMemory Nat).dims ≠ (tensor [2, 3] [1, 2, 3, 4, 5, 6] : MKLMemory Nat).dims ∧
    (MKLSqueezeOp.RunOnDevice (plainEngine Nat)
        (MKLSqueezeOp.runMany (plainEngine Nat)
          { dims_ := [0], cached_input_dims_ := [], buffer_ := none } (tensor [] [])
          [tensor [1, 2] [1, 2], tensor [2, 3] [1, 2, 3, 4, 5, 6]]).1
        (tensor [1, 2] [5, 6])
        (MKLSqueezeOp.runMany (plainEngine Nat)
          { dims_ := [0], cached_input_dims_ := [], buffer_ := none } (tensor [] [])
          [tensor [1, 2] [1, 2], tensor [2, 3] [1, 2, 3, 4, 5, 6]]).2).outcome = .ok () ∧
    (MKLSqueezeOp.RunOnDevice (plainEngine Nat)
        (MKLSqueezeOp.runMany (plainEngine Nat)
          { dims_ := [0], cached_input_dims_ := [], buffer_ := none } (tensor [] [])
          [tensor [1, 2] [1, 2], tensor [2, 3] [1, 2, 3, 4, 5, 6]]).1
        (tensor [1, 2] [5, 6])
        (MKLSqueezeOp.runMany (plainEngine Nat)
          { dims_ := [0], cached_input_dims_ := [], buffer_ := none } (tensor [] [])
          [tensor [1, 2] [1, 2], tensor [2, 3] [1, 2, 3, 4, 5, 6]]).2).reallocated = false :=
  ⟨by decide, by rfl, by rfl⟩

/-- C13, amended: after any sequence of invocations on one instance, an
invocation that reaches the copy step with an input whose shape differs from
the cached shape, which is the shape of the last earlier input that itself got
past both checks (the instance's initial cached shape if none did), has the
conversion buffer `Reset` to the new shape before the data is copied. -/
theorem RunOnDevice_realloc_on_shape_change (α : Type) (eng : LayoutEngine α)
    (op : MKLSqueezeOp α) (Y : MKLMemory α) (Xs : List (MKLMemory α)) (X : MKLMemory α)
    (hp : passesChecks op.dims_ X = true)
    (hne : X.dims ≠ lastAdaptedShape op.dims_ op.cached_input_dims_ Xs) :
    (MKLSqueezeOp.runMany eng op Y Xs).1.cached_input_dims_
      = lastAdaptedShape op.dims_ op.cached_input_dims_ Xs ∧
    ((MKLSqueezeOp.runMany eng op Y Xs).1.RunOnDevice eng X
        (MKLSqueezeOp.runMany eng op Y Xs).2).reallocated = true ∧
    ((MKLSqueezeOp.runMany eng op Y Xs).1.RunOnDevice eng X
        (MKLSqueezeOp.runMany eng op Y Xs).2).op.buffer_
      = some ((MKLMemory.Reset eng X.dims false).CopyFrom X) ∧
    ((MKLMemory.Reset eng X.dims false).CopyFrom X).dims = X.dims := by
  have hc := runMany_cached eng op Y Xs
  have hp2 : passesChecks (MKLSqueezeOp.runMany eng op Y Xs).1.dims_ X = true := by
    rw [runMany_dims_]; exact hp
  have hne2 : X.dims ≠ (MKLSqueezeOp.runMany eng op Y Xs).1.cached_input_dims_ := by
    rw [hc]; exact hne
  obtain ⟨hop, hre⟩ := RunOnDevice_adapter eng _ X (MKLSqueezeOp.runMany eng op Y Xs).2 hp2
  refine ⟨hc, ?_, ?_, rfl⟩
  · rw [hre]
    exact decide_eq_true hne2
  · rw [hop]
    simp [hne2]

/-- Witness of C13 (amended): after `[1,2]` was served and `[2,3]` refused, an
input of shape `[1,3]` has the buffer reallocated. -/
theorem RunOnDevice_realloc_on_shape_change_witness :
    (MKLSqueezeOp.RunOnDevice (plainEngine Nat)
        (MKLSqueezeOp.runMany (plainEngine Nat)
          { dims_ := [0], cached_input_dims_ := [], buffer_ := none } (tensor [] [])
          [tensor [1, 2] [1, 2], tensor [2, 3] [1, 2, 3, 4, 5, 6]]).1
        (tensor [1, 3] [5, 6, 7])
        (MKLSqueezeOp.runMany (plainEngine Nat)
          { dims_ := [0], cached_input_dims_ := [], buffer_ := none } (tensor [] [])
          [tensor [1, 2] [1, 2], tensor [2, 3] [1, 2, 3, 4, 5, 6]]).2).reallocated = true :=
  (RunOnDevice_realloc_on_shape_change Nat (plainEngine Nat)
    { dims_ := [0], cached_input_dims_ := [], buffer_ := none } (tensor [] [])
    [tensor [1, 2] [1, 2], tensor [2, 3] [1, 2, 3, 4, 5, 6]] (tensor [1, 3] [5, 6, 7])
    (by rfl) (by decide)).2.1

/-- C14: in every state that a constructed instance reaches by any sequence of
invocations, a conversion buffer that has been allocated has the cached input
shape; and an invocation that gets past both checks leaves the cached shape
and the buffer's shape equal to its input's shape, the buffer holding the
input's data. -/
theorem runMany_buffer_shape_invariant (α : Type) (eng : LayoutEngine α) (raw : List Int)
    (op0 : MKLSqueezeOp α) (Y : MKLMemory α) (Xs : List (MKLMemory α)) (X : MKLMemory α)
    (hc : (MKLSqueezeOp.construct α raw).result = .ok op0) :
    (∀ buf, (MKLSqueezeOp.runMany eng op0 Y Xs).1.buffer_ = some buf →
      buf.dims = (MKLSqueezeOp.runMany eng op0 Y Xs).1.cached_input_dims_) ∧
    (passesChecks op0.dims_ X = true →
      ((MKLSqueezeOp.runMany eng op0 Y Xs).1.RunOnDevice eng X
          (MKLSqueezeOp.runMany eng op0 Y Xs).2).op.cached_input_dims_ = X.dims ∧
      ∃ buf, ((MKLSqueezeOp.runMany eng op0 Y Xs).1.RunOnDevice eng X
          (MKLSqueezeOp.runMany eng op0 Y Xs).2).op.buffer_ = some buf ∧
        buf.dims = X.dims ∧ buf.data = X.data) := by
  obtain ⟨hinv0, _, _, h0⟩ := constructed_cacheConsistent α raw op0 hc
  have hinv := runMany_cacheConsistent eng op0 Y Xs hinv0
  have hd := runMany_dims_ eng op0 Y Xs
  refine ⟨?_, ?_⟩
  · intro buf hbuf
    unfold CacheConsistent at hinv
    rw [hbuf] at hinv
    exact hinv
  · intro hp
    have hp2 : passesChecks (MKLSqueezeOp.runMany eng op0 Y Xs).1.dims_ X = true := by
      rw [hd]; exact hp
    refine ⟨?_, RunOnDevice_buffer_after_pass eng _ X _ hinv (by rw [hd]; exact h0) hp2⟩
    rw [RunOnDevice_cached, hp2]
    rfl

/-- Witness of C14: the instance constructed from `dims=[0]`, after an input
of shape `[1,2]` was served and one of shape `[2,3]` refused, is invoked on an
input of shape `[1,3]`. -/
theorem runMany_buffer_shape_invariant_witness :
    (MKLSqueezeOp.RunOnDevice (plainEngine Nat)
        (MKLSqueezeOp.runMany (plainEngine Nat)
          { dims_ := [0], cached_input_dims_ := [], buffer_ := none } (tensor [] [])
          [tensor [1, 2] [1, 2], tensor [2, 3] [1, 2, 3, 4, 5, 6]]).1
        (tensor [1, 3] [5, 6, 7])
        (MKLSqueezeOp.runMany (plainEngine Nat)
          { dims_ := [0], cached_input_dims_ := [], buffer_ := none } (tensor [] [])
          [tensor [1, 2] [1, 2], tensor [2, 3] [1, 2, 3, 4, 5, 6]]).2).op.cached_input_dims_
      = (tensor [1, 3] [5, 6, 7] : MKLMemory Nat).dims ∧
    ∃ buf, (MKLSqueezeOp.RunOnDevice (plainEngine Nat)
        (MKLSqueezeOp.runMany (plainEngine Nat)
          { dims_ := [0], cached_input_dims_ := [], buffer_ := none } (tensor [] [])
          [tensor [1, 2] [1, 2], tensor [2, 3] [1, 2, 3, 4, 5, 6]]).1
        (tensor [1, 3] [5, 6, 7])
        (MKLSqueezeOp.runMany (plainEngine Nat)
          { dims_ := [0], cached_input_dims_ := [], buffer_ := none } (tensor [] [])
          [tensor [1, 2] [1, 2], tensor [2, 3] [1, 2, 3, 4, 5, 6]]).2).op.buffer_ = some buf ∧
      buf.dims = (tensor [1, 3] [5, 6, 7] : MKLMemory Nat).dims ∧
      buf.data = (tensor [1, 3] [5, 6, 7] : MKLMemory Nat).data :=
  (runMany_buffer_shape_invariant Nat (plainEngine Nat) [0]
    { dims_ := [0], cached_input_dims_ := [], buffer_ := none } (tensor [] [])
    [tensor [1, 2] [1, 2], tensor [2, 3] [1, 2, 3, 4, 5, 6]] (tensor [1, 3] [5, 6, 7])
    (by rfl)).2 (by rfl)

/-- Counterexample to C15: a freshly constructed instance with `dims_ = [5]`
is `Uninitialized`, and its invocation on an input of rank 2, which fails the
rank check, leaves it `Uninitialized`. -/
theorem RunOnDevice_stays_uninitialized :
    ({ dims_ := [5], cached_input_dims_ := [], buffer_ := none } : MKLSqueezeOp Nat).state
      = .Uninitialized ∧
    (MKLSqueezeOp.RunOnDevice (plainEngine Nat)
        { dims_ := [5], cached_input_dims_ := [], buffer_ := none }
        (tensor [2, 3] [1, 2, 3, 4, 5, 6]) (tensor [] [])).op.state ≠ .Warm :=
  ⟨by rfl, by decide⟩

/-- C15, amended: in every state that a constructed instance reaches, an
invocation whose input gets past the rank check and the shape computation
leaves the instance `Warm`; an invocation stopped by one of these checks leaves
the state as it was (an `Uninitialized` instance stays `Uninitialized`); and no
invocation takes a `Warm` instance back to `Uninitialized`. -/
theorem RunOnDevice_state_transitions (α : Type) (eng : LayoutEngine α) (raw : List Int)
    (op0 : MKLSqueezeOp α) (Y : MKLMemory α) (Xs : List (MKLMemory α)) (X : MKLMemory α)
    (hc : (MKLSqueezeOp.construct α raw).result = .ok op0) :
    op0.state = .Uninitialized ∧
    (passesChecks op0.dims_ X = true →
      ((MKLSqueezeOp.runMany eng op0 Y Xs).1.RunOnDevice eng X
          (MKLSqueezeOp.runMany eng op0 Y Xs).2).op.state = .Warm) ∧
    (passesChecks op0.dims_ X = false →
      ((MKLSqueezeOp.runMany eng op0 Y Xs).1.RunOnDevice eng X
          (MKLSqueezeOp.runMany eng op0 Y Xs).2).op.state
        = (MKLSqueezeOp.runMany eng op0 Y Xs).1.state) ∧
    ((MKLSqueezeOp.runMany eng op0 Y Xs).1.state = .Warm →
      ((MKLSqueezeOp.runMany eng op0 Y Xs).1.RunOnDevice eng X
          (MKLSqueezeOp.runMany eng op0 Y Xs).2).op.state = .Warm) := by
  obtain ⟨hinv0, _, hnone, h0⟩ := constructed_cacheConsistent α raw op0 hc
  have hinv := runMany_cacheConsistent eng op0 Y Xs hinv0
  have hd := runMany_dims_ eng op0 Y Xs
  have hpass : passesChecks op0.dims_ X = true →
      ((MKLSqueezeOp.runMany eng op0 Y Xs).1.RunOnDevice eng X
          (MKLSqueezeOp.runMany eng op0 Y Xs).2).op.state = .Warm := by
    intro hp
    obtain ⟨buf, hbuf, _⟩ := RunOnDevice_buffer_after_pass eng _ X
      (MKLSqueezeOp.runMany eng op0 Y Xs).2 hinv (by rw [hd]; exact h0) (by rw [hd]; exact hp)
    simp only [MKLSqueezeOp.state, hbuf]
  have hfail : passesChecks op0.dims_ X = false →
      ((MKLSqueezeOp.runMany eng op0 Y Xs).1.RunOnDevice eng X
          (MKLSqueezeOp.runMany eng op0 Y Xs).2).op.state
        = (MKLSqueezeOp.runMany eng op0 Y Xs).1.state := by
    intro hp
    rw [(RunOnDevice_of_not_passes eng _ X (MKLSqueezeOp.runMany eng op0 Y Xs).2
      (by rw [hd]; exact hp)).1]
  refine ⟨by simp only [MKLSqueezeOp.state, hnone], hpass, hfail, ?_⟩
  intro hw
  cases hp : passesChecks op0.dims_ X
  · rw [hfail hp]; exact hw
  · exact hpass hp

/-- Witness of C15 (amended): the instance constructed from `dims=[0]` is
`Warm` after its first invocation on an input of shape `[1,2]`. -/
theorem RunOnDevice_state_transitions_witness :
    (MKLSqueezeOp.RunOnDevice (plainEngine Nat)
        (MKLSqueezeOp.runMany (plainEngine Nat)
          { dims_ := [0], cached_input_dims_ := [], buffer_ := none } (tensor [] []) []).1
        (tensor [1, 2] [1, 2])
        (MKLSqueezeOp.runMany (plainEngine Nat)
          { dims_ := [0], cached_input_dims_ := [], buffer_ := none } (tensor [] []) []).2).op.state
      = .Warm :=
  (RunOnDevice_state_transitions Nat (plainEngine Nat) [0]
    { dims_ := [0], cached_input_dims_ := [], buffer_ := none } (tensor [] []) []
    (tensor [1, 2] [1, 2]) (by rfl)).2.1 (by rfl)

/-- C16: for an invocation that gets past the rank check and the shape
computation, the product of the extents of the squeezed shape equals the
product of the extents of the input shape; so the shape that `Reshape` writes
over the output, which was `Reset` to the input's shape, has the same number of
elements, and so has the output of an invocation that returns. -/
theorem RunOnDevice_element_count (α : Type) (eng : LayoutEngine α) (op : MKLSqueezeOp α)
    (X Y : MKLMemory α) (hp : passesChecks op.dims_ X = true) :
    ∃ new_dims, ComputeDims X.dims op.dims_ = .ok new_dims ∧
      new_dims.prod = X.dims.prod ∧
      new_dims.prod = (MKLMemory.Reset eng X.dims true).dims.prod ∧
      ((op.RunOnDevice eng X Y).outcome = .ok () →
        (op.RunOnDevice eng X Y).Y.dims = new_dims ∧
        (op.RunOnDevice eng X Y).Y.dims.prod = X.dims.prod) := by
  obtain ⟨hr, new_dims, hcd⟩ := (passesChecks_iff op.dims_ X).mp hp
  have hprod : new_dims.prod = X.dims.prod := ComputeDimsFrom_prod op.dims_ 0 X.dims new_dims hcd
  refine ⟨new_dims, hcd, hprod, hprod, ?_⟩
  intro hs
  have hY := ((RunOnDevice_past_checks eng op X Y new_dims hr hcd).2 hs).1
  exact ⟨hY, by rw [hY, hprod]⟩

/-- Witness of C16: the input shape `[1,3,1,5]` with `dims_ = [0,2]`: 15
elements before and after. -/
theorem RunOnDevice_element_count_witness :
    ∃ new_dims, ComputeDims [1, 3, 1, 5] [0, 2] = .ok new_dims ∧
      new_dims.prod = ([1, 3, 1, 5] : List Nat).prod ∧
      new_dims.prod = (MKLMemory.Reset (plainEngine Nat) [1, 3, 1, 5] true).dims.prod ∧
      ((MKLSqueezeOp.RunOnDevice (plainEngine Nat)
          { dims_ := [0, 2], cached_input_dims_ := [], buffer_ := none }
          (tensor [1, 3, 1, 5] (List.range 15)) (tensor [] [])).outcome = .ok () →
        (MKLSqueezeOp.RunOnDevice (plainEngine Nat)
          { dims_ := [0, 2], cached_input_dims_ := [], buffer_ := none }
          (tensor [1, 3, 1, 5] (List.range 15)) (tensor [] [])).Y.dims = new_dims ∧
        (MKLSqueezeOp.RunOnDevice (plainEngine Nat)
          { dims_ := [0, 2], cached_input_dims_ := [], buffer_ := none }
          (tensor [1, 3, 1, 5] (List.range 15)) (tensor [] [])).Y.dims.prod
          = ([1, 3, 1, 5] : List Nat).prod) :=
  RunOnDevice_element_count Nat (plainEngine Nat)
    { dims_ := [0, 2], cached_input_dims_ := [], buffer_ := none }
    (tensor [1, 3, 1, 5] (List.range 15)) (tensor [] []) (by rfl)

/-- C17: on a freshly constructed instance, the first invocation that gets
past the rank check and the shape computation (the earlier ones, stopped by a
check, having changed nothing) does `Reset` the conversion buffer before the
copy: the cached shape is still the empty shape, the input has rank at least 1
because `dims_.back()` is non-negative, so the shapes differ; the copy finds an
allocated buffer of the input's shape. -/
theorem RunOnDevice_first_pass_allocates (α : Type) (eng : LayoutEngine α) (raw : List Int)
    (op0 : MKLSqueezeOp α) (Y : MKLMemory α) (Xs : List (MKLMemory α)) (X : MKLMemory α)
    (hc : (MKLSqueezeOp.construct α raw).result = .ok op0)
    (hfail : ∀ X1 ∈ Xs, passesChecks op0.dims_ X1 = false)
    (hp : passesChecks op0.dims_ X = true) :
    (MKLSqueezeOp.runMany eng op0 Y Xs).1 = op0 ∧
    op0.cached_input_dims_ = [] ∧ op0.buffer_ = none ∧
    1 ≤ X.ndim ∧ X.dims ≠ op0.cached_input_dims_ ∧
    ((MKLSqueezeOp.runMany eng op0 Y Xs).1.RunOnDevice eng X
        (MKLSqueezeOp.runMany eng op0 Y Xs).2).reallocated = true ∧
    ((MKLSqueezeOp.runMany eng op0 Y Xs).1.RunOnDevice eng X
        (MKLSqueezeOp.runMany eng op0 Y Xs).2).outcome ≠ .error .copyUnallocated ∧
    ((MKLSqueezeOp.runMany eng op0 Y Xs).1.RunOnDevice eng X
        (MKLSqueezeOp.runMany eng op0 Y Xs).2).op.buffer_
      = some ((MKLMemory.Reset eng X.dims false).CopyFrom X) := by
  obtain ⟨_, hcached, hnone, h0⟩ := constructed_cacheConsistent α raw op0 hc
  have hnil : X.dims ≠ [] := dims_ne_nil_of_passes op0.dims_ X h0 hp
  have hne : X.dims ≠ op0.cached_input_dims_ := by rw [hcached]; exact hnil
  have hrun := runMany_of_not_passes eng op0 Y Xs hfail
  obtain ⟨hop, hre⟩ := RunOnDevice_adapter eng op0 X Y hp
  have hbuf : (op0.RunOnDevice eng X Y).op.buffer_
      = some ((MKLMemory.Reset eng X.dims false).CopyFrom X) := by
    rw [hop]; simp [hne]
  rw [hrun]
  refine ⟨rfl, hcached, hnone, ?_, hne, ?_, ?_, hbuf⟩
  · exact List.length_pos.mpr hnil
  · rw [hre]; exact decide_eq_true hne
  · intro he
    have := RunOnDevice_copyUnallocated eng op0 X Y he
    rw [hbuf] at this
    cases this

/-- Witness of C17: the instance constructed from `dims=[0]`, first invoked on
an input of rank 0 (refused), then on an input of shape `[1,2]`. -/
theorem RunOnDevice_first_pass_allocates_witness :
    (MKLSqueezeOp.RunOnDevice (plainEngine Nat)
        (MKLSqueezeOp.runMany (plainEngine Nat)
          { dims_ := [0], cached_input_dims_ := [], buffer_ := none } (tensor [] [])
          [tensor [] [9]]).1
        (tensor [1, 2] [1, 2])
        (MKLSqueezeOp.runMany (plainEngine Nat)
          { dims_ := [0], cached_input_dims_ := [], buffer_ := none } (tensor [] [])
          [tensor [] [9]]).2).reallocated = true :=
  (RunOnDevice_first_pass_allocates Nat (plainEngine Nat) [0]
    { dims_ := [0], cached_input_dims_ := [], buffer_ := none } (tensor [] [])
    [tensor [] [9]] (tensor [1, 2] [1, 2]) (by rfl) (by decide) (by rfl)).2.2.2.2.2.1

end mkl
end caffe2
